import Mathlib

/-!
Verification development for the MiStockSync reconciliation engine
(`src/main.py`).  The Python code is shallowly embedded: pandas cells are
modelled by the inductive `Val` (with `vNaN` for IEEE NaN and `vNone` for
Python `None`), rows by association lists `Row`, dataframes by `DFrame`
(explicit column list plus rows), fallible code by `Except String`, and
Python `float` prices by `FNum := Option ℚ` where `none` models NaN.
Each definition is named after the source function it translates.
-/

set_option autoImplicit false
set_option maxRecDepth 40000

/- Batteries marks the `Rat` arithmetic operations `@[irreducible]`, which
blocks `decide`-style evaluation of concrete reconciliation runs; prices in
this development are exact rationals, so we restore reducibility locally. -/
set_option allowUnsafeReducibility true
attribute [local semireducible] Rat.mul Rat.add Rat.sub Rat.div Rat.inv Rat.blt Rat.ofScientific

namespace MiStockSync

/-- Model of a Python/pandas cell value.  `vNaN` is `float('nan')` (the
pandas missing marker), `vNone` is Python `None`.  Integers and floats are
kept apart because `compare_by_articles` branches on `isinstance(value, int)`
for the "vitya" configuration. -/
inductive Val where
  | vNone : Val
  | vNaN : Val
  | vStr (s : String) : Val
  | vInt (n : Int) : Val
  | vRat (q : ℚ) : Val
  | vBool (b : Bool) : Val
  deriving DecidableEq, Repr

/-- A row / record: an ordered association list from column names to values,
mirroring the loosely-typed dicts the source probes with `get`. -/
abbrev Row := List (String × Val)

/-- First value bound to key `k`, like Python `dict.get(k)` returning `None`
on absence (we return `Option` and let call sites supply defaults). -/
def rowFind (r : Row) (k : String) : Option Val :=
  match r with
  | [] => none
  | (k', v) :: rest => if k' = k then some v else rowFind rest k

/-- Python `row.get(k, d)`. -/
def rowGet (r : Row) (k : String) (d : Val) : Val :=
  (rowFind r k).getD d

/-- Python `k in row` (for a pandas Series produced by `iterrows`, membership
tests the index, i.e. the column names). -/
def rowHas (r : Row) (k : String) : Bool :=
  (rowFind r k).isSome

/-- `pd.isna`: true exactly on `None` and NaN. -/
def pdIsna : Val → Bool
  | Val.vNone => true
  | Val.vNaN => true
  | _ => false

/-- `pd.notna`. -/
def pdNotna (v : Val) : Bool := !(pdIsna v)

/-- Python `==` on the cell values we model.  `NaN == NaN` is `False`;
`None == None` is `True`; an `int` equals a `float` with the same value;
values of unrelated types are unequal. -/
def pyEq : Val → Val → Bool
  | Val.vNone, Val.vNone => true
  | Val.vStr a, Val.vStr b => a = b
  | Val.vInt a, Val.vInt b => a = b
  | Val.vRat a, Val.vRat b => a = b
  | Val.vInt a, Val.vRat b => (a : ℚ) = b
  | Val.vRat a, Val.vInt b => a = (b : ℚ)
  | Val.vBool a, Val.vBool b => a = b
  | _, _ => false

/-! ### Character-level helpers (Python `str.lower/upper/strip/isdigit`)

Only ASCII and the Cyrillic block are mapped, which covers every string the
program manipulates (product names, colors, codes). -/

/-- Python whitespace for `strip`/`\s` (ASCII subset). -/
def isPySpace (c : Char) : Bool :=
  c = ' ' || c = '\t' || c = '\n' || c = '\r' || c.val = 11 || c.val = 12

def isAsciiDigit (c : Char) : Bool := '0' ≤ c && c ≤ '9'

/-- Lowercasing one character: ASCII `A`-`Z`, Cyrillic `А`-`Я` (U+0410..U+042F)
and `Ё` (U+0401). -/
def pyLowerChar (c : Char) : Char :=
  if 'A' ≤ c && c ≤ 'Z' then Char.ofNat (c.toNat + 32)
  else if 0x410 ≤ c.val && c.val ≤ 0x42F then Char.ofNat (c.toNat + 32)
  else if c.val = 0x401 then Char.ofNat 0x451
  else c

/-- Uppercasing one character (inverse ranges of `pyLowerChar`). -/
def pyUpperChar (c : Char) : Char :=
  if 'a' ≤ c && c ≤ 'z' then Char.ofNat (c.toNat - 32)
  else if 0x430 ≤ c.val && c.val ≤ 0x44F then Char.ofNat (c.toNat - 32)
  else if c.val = 0x451 then Char.ofNat 0x401
  else c

def pyLower (s : String) : String := String.mk (s.data.map pyLowerChar)

def pyUpper (s : String) : String := String.mk (s.data.map pyUpperChar)

/-- Python `str.strip()`. -/
def pyStrip (s : String) : String :=
  String.mk (((s.data.dropWhile isPySpace).reverse.dropWhile isPySpace).reverse)

/-- Nat value of a digit string (the successful branch of Python `int`). -/
def digitsToNat (s : String) : Nat :=
  s.data.foldl (fun acc c => acc * 10 + (c.toNat - '0'.toNat)) 0

/-- Decimal rendering of a rational whose denominator divides a power of ten,
used for Python `str(float)` on the terminating decimals that actually occur;
other rationals (never produced by the claims' inputs) fall back to the raw
`num/den` rendering. -/
def ratDecimalString (q : ℚ) : String :=
  if q.den = 1 then toString q.num ++ ".0"
  else if (q * 10).den = 1 then
    let n := (q.num * 10 / q.den).natAbs
    (if q < 0 then "-" else "") ++ toString (n / 10) ++ "." ++ toString (n % 10)
  else toString q.num ++ "/" ++ toString q.den

/-- Python `str(value)` for the cell values we model. -/
def pyStr : Val → String
  | Val.vNone => "None"
  | Val.vNaN => "nan"
  | Val.vStr s => s
  | Val.vInt n => toString n
  | Val.vRat q => ratDecimalString q
  | Val.vBool b => if b then "True" else "False"

/-- Python `float` numbers including NaN: `none` is NaN. -/
abbrev FNum := Option ℚ

/-- A very small model of Python `float(str)`: optional sign, digits,
optional fractional part.  Anything else raises `ValueError` (`none`). -/
def pyParseFloat (s : String) : Option ℚ :=
  let t := pyStrip s
  let core (u : List Char) : Option ℚ :=
    let intPart := u.takeWhile isAsciiDigit
    let rest := u.drop intPart.length
    match rest with
    | [] => if intPart.isEmpty then none else some (digitsToNat (String.mk intPart) : ℚ)
    | '.' :: frac =>
        if frac.all isAsciiDigit && !(intPart.isEmpty && frac.isEmpty) then
          some ((digitsToNat (String.mk intPart) : ℚ) +
            (digitsToNat (String.mk frac) : ℚ) / ((10 : ℚ) ^ frac.length))
        else none
    | _ => none
  match t.data with
  | '-' :: u => (core u).map (fun q => -q)
  | '+' :: u => core u
  | u => core u

/-- `float(price_raw) if price_raw is not None else 0.0` wrapped in
`try/except (ValueError, TypeError): 0.0` — the price coercion used by
stages 2 and 3.  NaN input yields float NaN. -/
def pyFloatOrZero : Val → FNum
  | Val.vNone => some 0
  | Val.vNaN => none
  | Val.vInt n => some (n : ℚ)
  | Val.vRat q => some q
  | Val.vBool b => some (if b then 1 else 0)
  | Val.vStr s => some ((pyParseFloat s).getD 0)

/-- Subtraction on Python floats (NaN propagates). -/
def fnumSub (a b : FNum) : FNum :=
  match a, b with
  | some x, some y => some (x - y)
  | _, _ => none

/-- `(sp - bp) / bp * 100` for a strictly positive real `bp`. -/
def percentFormula (sp : FNum) (bp : ℚ) : FNum :=
  (fnumSub sp (some bp)).map (fun d => d / bp * 100)

/-- `abs(x) > 5` on Python floats: any comparison with NaN is `False`. -/
def fnumAbsGt (a : FNum) (t : ℚ) : Bool :=
  match a with
  | some x => t < |x|
  | none => false

/-- Embed a Python float back into a cell value. -/
def fnumVal : FNum → Val
  | some q => Val.vRat q
  | none => Val.vNaN

/-! ### `difflib.SequenceMatcher(None, a, b).ratio()`

The similarity scorer used by `compare_by_fuzzy_string_matching` and
`find_item_by_fuzzy_matching`.  With `autojunk` the stdlib marks "popular"
characters as junk only when `len(b) >= 200`; every string compared by this
program (product names) is far shorter, so the junk-free algorithm below is
the exact semantics: recursively take the longest matching block (maximum
length, then smallest start in `a`, then smallest start in `b`), and
`ratio = 2*M/T` where `M` is the total matched length and `T = len(a)+len(b)`
(`1.0` when both are empty). -/

/-- Length of the common prefix of two character lists. -/
def commonPrefixLen : List Char → List Char → Nat
  | a :: as, b :: bs => if a = b then commonPrefixLen as bs + 1 else 0
  | _, _ => 0

/-- Inner scan of `find_longest_match`: for a fixed suffix `ad = a[i:]`, walk
the suffixes of `b`, keeping the best `(i, j, k)` seen so far (strict
improvement on the block length `k`). -/
def flmInner (ad : List Char) (i : Nat) : List Char → Nat → Nat × Nat × Nat → Nat × Nat × Nat
  | [], _, best => best
  | bd@(_ :: brest), j, (bi, bj, bk) =>
      let k := commonPrefixLen ad bd
      flmInner ad i brest (j + 1) (if bk < k then (i, j, k) else (bi, bj, bk))

/-- Outer scan of `find_longest_match` over the suffixes of `a`. -/
def flmOuter (b : List Char) : List Char → Nat → Nat × Nat × Nat → Nat × Nat × Nat
  | [], _, best => best
  | ad@(_ :: arest), i, best => flmOuter b arest (i + 1) (flmInner ad i b 0 best)

/-- `difflib` `find_longest_match` over the whole strings (no junk): the
longest matching block `(i, j, k)` with `a[i:i+k] == b[j:j+k]`, preferring
the smallest start in `a`, then the smallest start in `b`.  The scan in
`(i, j)` lexicographic order with strict improvement on the length
reproduces the stdlib's tie-breaking. -/
def findLongestMatch (a b : List Char) : Nat × Nat × Nat :=
  flmOuter b a 0 (0, 0, 0)

/-- Total matched length over all matching blocks (the `M` of `difflib`'s
`ratio`): the longest block plus, recursively, the matched lengths of the
pieces to its left and to its right.  The fuel only bounds the recursion
depth structurally; each round removes the `k ≥ 1` characters of the found
block from both strings, so `len(a) + len(b)` rounds always suffice. -/
def matchTotalFuel : Nat → List Char → List Char → Nat
  | 0, _, _ => 0
  | fuel + 1, a, b =>
    match findLongestMatch a b with
    | (_, _, 0) => 0
    | (i, j, k) =>
      matchTotalFuel fuel (a.take i) (b.take j) + k +
        matchTotalFuel fuel (a.drop (i + k)) (b.drop (j + k))

def matchTotal (a b : List Char) : Nat := matchTotalFuel (a.length + b.length) a b

/-- `difflib.SequenceMatcher(None, a, b).ratio()` as an exact rational. -/
def sequenceRatio (a b : String) : ℚ :=
  if a.data.length + b.data.length = 0 then 1
  else 2 * (matchTotal a.data b.data : ℚ) / ((a.data.length : ℚ) + (b.data.length : ℚ))

/-! ### Key Extractor (`find_product_code_in_brackets`, `find_battery_capacity`,
`find_product_code_in_name`, `find_product_code_unified`) -/

/-- First value produced by `f` along the list, or `none`. -/
def listFirstSome {α β : Type} (l : List α) (f : α → Option β) : Option β :=
  match l with
  | [] => none
  | x :: rest =>
      match f x with
      | some y => some y
      | none => listFirstSome rest f

/-- Does the second list start with the first? -/
def listStartsWith : List Char → List Char → Bool
  | [], _ => true
  | _, [] => false
  | p :: ps, x :: xs => p = x && listStartsWith ps xs

/-- Substring containment (Python `needle in hay`). -/
def containsSubstr : List Char → List Char → Bool
  | [], needle => needle.isEmpty
  | l@(_ :: rest), needle => listStartsWith needle l || containsSubstr rest needle

/-- The first group captured by `re.findall(r"\(([^)]+)\)", s)[0]`: content of
the first `(` that encloses at least one non-`)` character and is closed by a
`)`.  An unclosed or immediately-closed `(` makes the regex engine resume the
scan at the next position, which the recursion reproduces. -/
def firstBracketGroup : List Char → Option (List Char)
  | [] => none
  | c :: rest =>
      if c = '(' then
        let content := rest.takeWhile (fun x => x ≠ ')')
        if content.isEmpty then firstBracketGroup rest
        else if (rest.drop content.length).isEmpty then firstBracketGroup rest
        else some content
      else firstBracketGroup rest

/-- Character class `[A-Za-zА-Яа-я0-9\-]` of the bracket-code check (the
Cyrillic ranges `А-Я`/`а-я` are U+0410..U+042F and U+0430..U+044F; `Ё`/`ё`
are outside them, exactly as in the regex). -/
def bracketCodeChar (c : Char) : Bool :=
  ('A' ≤ c && c ≤ 'Z') || ('a' ≤ c && c ≤ 'z') || isAsciiDigit c || c = '-' ||
    (0x410 ≤ c.val && c.val ≤ 0x44F)

/-- `find_product_code_in_brackets`: first parenthesized group, stripped and
upper-cased; accepted only when it matches `^[A-Za-zА-Яа-я0-9\-]+$` and has
at least 4 characters.  Non-string / NaN input yields `None`. -/
def find_product_code_in_brackets (product_name : Val) : Option String :=
  match product_name with
  | Val.vStr s =>
      match firstBracketGroup s.data with
      | none => none
      | some g =>
          let code := pyUpper (pyStrip (String.mk g))
          if code.data.all bracketCodeChar && 4 ≤ code.data.length then some code
          else none
  | _ => none

/-- One attempt of a capacity pattern `(\d+)\s*suffix` (or without `\s*`) at a
fixed position: a maximal digit run, optionally skipped whitespace, then the
literal suffix.  The digit run and whitespace skip are greedy; shrinking them
can never make the suffix match (it starts with a letter), so no backtracking
is needed. -/
def matchCapAt (ws : Bool) (suffix : List Char) (l : List Char) : Option (List Char) :=
  let ds := l.takeWhile isAsciiDigit
  if ds.isEmpty then none
  else
    let rest := l.drop ds.length
    let rest2 := if ws then rest.dropWhile isPySpace else rest
    if listStartsWith suffix rest2 then some ds else none

/-- `re.search` for one capacity pattern: leftmost position where it matches. -/
def searchCapPattern (ws : Bool) (suffix : List Char) : List Char → Option (List Char)
  | [] => none
  | l@(_ :: rest) =>
      match matchCapAt ws suffix l with
      | some ds => some ds
      | none => searchCapPattern ws suffix rest

/-- The eight capacity patterns of `find_battery_capacity`, in source order
(with duplicates): `(\d+)\s*mah`, `(\d+)mah` twice each, then the Cyrillic
`мач` and `мч` variants. -/
def capPatterns : List (Bool × List Char) :=
  [(true, "mah".data), (false, "mah".data), (true, "mah".data), (false, "mah".data),
   (true, "мач".data), (false, "мач".data), (true, "мч".data), (false, "мч".data)]

/-- `find_battery_capacity`: scan the lower-cased name with each pattern; a
found digit group is returned only when its integer value lies in
`[5, 999999]` (the `int()` call never raises on a digit group, so the
`except ValueError` branch is dead). -/
def find_battery_capacity (product_name : Val) : Option String :=
  match product_name with
  | Val.vStr s =>
      let nl := (pyLower s).data
      listFirstSome capPatterns (fun p =>
        match searchCapPattern p.1 p.2 nl with
        | some ds =>
            let n := digitsToNat (String.mk ds)
            if 5 ≤ n && n ≤ 999999 then some (String.mk ds) else none
        | none => none)
  | _ => none

/-! `find_product_code_in_name`: seven `re.findall` patterns over the
upper-cased name, each bounded by `\b`.  Python's `\b` separates word
characters (`\w`, here Latin/Cyrillic letters, digits, underscore) from
non-word characters. -/

def isWordChar (c : Char) : Bool :=
  ('A' ≤ c && c ≤ 'Z') || ('a' ≤ c && c ≤ 'z') || isAsciiDigit c || c = '_' ||
    (0x410 ≤ c.val && c.val ≤ 0x44F) || c.val = 0x401 || c.val = 0x451

def isUpperLetter (c : Char) : Bool := 'A' ≤ c && c ≤ 'Z'

def isUpperDigit (c : Char) : Bool := isUpperLetter c || isAsciiDigit c

/-- Cyrillic `[А-Я]` (U+0410..U+042F). -/
def isCyrUpper (c : Char) : Bool := 0x410 ≤ c.val && c.val ≤ 0x42F

/-- A pattern attempt at a fixed position: `some (match, rest)` on success.
The trailing `\b` check is part of each attempt. -/
abbrev PatAttempt := List Char → Option (List Char × List Char)

/-- The trailing `\b`: the next character must not be a word character. -/
def endBoundary (rest : List Char) : Bool :=
  match rest with
  | [] => true
  | c :: _ => !isWordChar c

/-- Greedy repetitions of `-[A-Z0-9]+` (fuelled by the list length; each
round consumes at least two characters). -/
def hyphenReps : Nat → List Char → List Char × List Char
  | 0, l => ([], l)
  | fuel + 1, l =>
      match l with
      | '-' :: rest =>
          let r := rest.takeWhile isUpperDigit
          if r.isEmpty then ([], l)
          else
            let next := hyphenReps fuel (rest.drop r.length)
            ('-' :: (r ++ next.1), next.2)
      | _ => ([], l)

/-- Pattern 1: `\b[A-Z0-9]+(?:-[A-Z0-9]+)+\b` (hyphenated blocks). -/
def tryHyphenBlocks : PatAttempt := fun l =>
  let r0 := l.takeWhile isUpperDigit
  if r0.isEmpty then none
  else
    let reps := hyphenReps l.length (l.drop r0.length)
    if reps.1.isEmpty then none
    else if endBoundary reps.2 then some (r0 ++ reps.1, reps.2) else none

/-- Pattern 2: `\b[A-Z]{2,}[0-9]{2,}[A-Z]*\b`. -/
def tryLetterDigitLetter : PatAttempt := fun l =>
  let r1 := l.takeWhile isUpperLetter
  if r1.length < 2 then none
  else
    let l2 := l.drop r1.length
    let r2 := l2.takeWhile isAsciiDigit
    if r2.length < 2 then none
    else
      let l3 := l2.drop r2.length
      let r3 := l3.takeWhile isUpperLetter
      let rest := l3.drop r3.length
      if endBoundary rest then some (r1 ++ r2 ++ r3, rest) else none

/-- Pattern 3: `\b[0-9]{3,}[A-Z]{1,3}\b`.  The letter run is maximal; a run
longer than 3 leaves a word character after any 1-3 letter slice, so the
trailing `\b` can never hold and the attempt fails. -/
def tryDigitLetter : PatAttempt := fun l =>
  let r1 := l.takeWhile isAsciiDigit
  if r1.length < 3 then none
  else
    let l2 := l.drop r1.length
    let r2 := l2.takeWhile isUpperLetter
    if r2.length < 1 || 3 < r2.length then none
    else
      let rest := l2.drop r2.length
      if endBoundary rest then some (r1 ++ r2, rest) else none

/-- Pattern 4: `\b[A-Z][0-9]{4,}[A-Z][0-9]+\b` (the `M2319E1` shape). -/
def tryLetterLongDigits : PatAttempt := fun l =>
  match l with
  | c1 :: l1 =>
      if !isUpperLetter c1 then none
      else
        let r1 := l1.takeWhile isAsciiDigit
        if r1.length < 4 then none
        else
          match l1.drop r1.length with
          | c2 :: l2 =>
              if !isUpperLetter c2 then none
              else
                let r2 := l2.takeWhile isAsciiDigit
                if r2.isEmpty then none
                else
                  let rest := l2.drop r2.length
                  if endBoundary rest then some (c1 :: (r1 ++ c2 :: r2), rest) else none
          | [] => none
  | [] => none

/-- Pattern 5: `\b[A-Z]{4,8}\b`: the maximal letter run must have length 4-8
(a longer run leaves a letter after any 8-character slice, failing `\b`). -/
def tryCapsRun : PatAttempt := fun l =>
  let r := l.takeWhile isUpperLetter
  if 4 ≤ r.length && r.length ≤ 8 then
    let rest := l.drop r.length
    if endBoundary rest then some (r, rest) else none
  else none

/-- Pattern 6: `\b[A-Z][0-9]{1,3}\b` (codes such as `C60`). -/
def tryLetterShortDigits : PatAttempt := fun l =>
  match l with
  | c1 :: l1 =>
      if !isUpperLetter c1 then none
      else
        let r := l1.takeWhile isAsciiDigit
        if r.length < 1 || 3 < r.length then none
        else
          let rest := l1.drop r.length
          if endBoundary rest then some (c1 :: r, rest) else none
  | [] => none

/-- Pattern 7: `\b[А-Я][0-9]{1,3}\b` (Cyrillic letter plus digits). -/
def tryCyrShortDigits : PatAttempt := fun l =>
  match l with
  | c1 :: l1 =>
      if !isCyrUpper c1 then none
      else
        let r := l1.takeWhile isAsciiDigit
        if r.length < 1 || 3 < r.length then none
        else
          let rest := l1.drop r.length
          if endBoundary rest then some (c1 :: r, rest) else none
  | [] => none

/-- `re.findall` for one pattern: scan left to right; a position qualifies
when the preceding character is absent or not a word character (the leading
`\b`; every pattern starts with a word character).  After a hit the scan
resumes past the match (non-overlapping), with the match's last character as
the new preceding character.  Fuelled by the list length (each hit consumes
at least one character). -/
def findallGo (pat : PatAttempt) : Nat → Option Char → List Char → List (List Char)
  | 0, _, _ => []
  | _ + 1, _, [] => []
  | fuel + 1, prev, l@(c :: rest) =>
      let startOk :=
        match prev with
        | none => true
        | some p => !isWordChar p
      if startOk then
        match pat l with
        | some (m, rest2) => m :: findallGo pat fuel m.getLast? rest2
        | none => findallGo pat fuel (some c) rest
      else findallGo pat fuel (some c) rest

def findallPat (pat : PatAttempt) (l : List Char) : List (List Char) :=
  findallGo pat l.length none l

/-- The stoplist filter and the unit/number filters of
`find_product_code_in_name`, applied to one `findall` hit. -/
def isSkippedCode (m : List Char) : Bool :=
  let ml := m.map pyLowerChar
  let ds := ml.takeWhile isAsciiDigit
  let unitTail := ml.drop ds.length
  let isUnit := !ds.isEmpty &&
    (unitTail = "mah".data || unitTail = "w".data || unitTail = "wh".data ||
      unitTail = "ma".data)
  let isLongNumber := 5 ≤ m.length && m.all isAsciiDigit
  let inStoplist := ["USB-C", "POWER", "PORTABLE", "CHARGER", "BANK"].any
    (fun s => s.data = m)
  let isOverlongCaps := (4 ≤ m.length && m.length ≤ 8 && m.all isUpperLetter) &&
    8 < m.length
  isUnit || isLongNumber || inStoplist || isOverlongCaps

/-- The seven patterns of `find_product_code_in_name`, in source order. -/
def namePatterns : List PatAttempt :=
  [tryHyphenBlocks, tryLetterDigitLetter, tryDigitLetter, tryLetterLongDigits,
   tryCapsRun, tryLetterShortDigits, tryCyrShortDigits]

/-- `find_product_code_in_name`: first pattern whose `findall` hits contain a
match surviving the filters; that first surviving match is returned. -/
def find_product_code_in_name (product_name : Val) : Option String :=
  match product_name with
  | Val.vStr s =>
      listFirstSome namePatterns (fun pat =>
        ((findallPat pat (pyUpper s).data).find? (fun m => !isSkippedCode m)).map
          String.mk)
  | _ => none

/-- The fixed brand vocabulary of `find_product_code_unified`. -/
def brands : List String :=
  ["GREENOE", "XIAOMI", "SAMSUNG", "APPLE", "HUAWEI", "OPPO", "VIVO", "ONEPLUS"]

/-- The inline brand loop of `find_product_code_unified`: first brand that is
a substring of the upper-cased name. -/
def find_brand_in_name (name_upper : String) : Option String :=
  brands.find? (fun b => containsSubstr name_upper.data b.data)

/-- `find_product_code_unified`: bracket code first, then brand, then the
generic extractor (whose result must also be at least 4 characters). -/
def find_product_code_unified (product_name : Val) : Option String :=
  match product_name with
  | Val.vStr s =>
      match find_product_code_in_brackets (Val.vStr s) with
      | some c => some c
      | none =>
          match find_brand_in_name (pyUpper s) with
          | some b => some b
          | none =>
              match find_product_code_in_name (Val.vStr s) with
              | some c => if 4 ≤ c.length then some c else none
              | none => none
  | _ => none

/-! ### Text Normalizer and small helpers -/

/-- `safe_color_processing`: `None`/NaN, blank, and the literal tokens
`"nan"`/`"none"` (case-insensitive) map to the empty string; everything else
is `str(...)`, stripped and lower-cased. -/
def safe_color_processing (color_value : Val) : String :=
  if color_value = Val.vNone || pdIsna color_value then ""
  else
    let color_str := pyStrip (pyStr color_value)
    if color_str = "" || pyLower color_str = "nan" || pyLower color_str = "none" then ""
    else pyLower color_str

/-- Python truthiness of a cell value (`not x`): empty string, `None`, and
zero are falsy; NaN is truthy. -/
def pyTruthy : Val → Bool
  | Val.vNone => false
  | Val.vNaN => true
  | Val.vStr s => s ≠ ""
  | Val.vInt n => n ≠ 0
  | Val.vRat q => q ≠ 0
  | Val.vBool b => b

/-- Python `a or b`. -/
def pyOr (a b : Val) : Val := if pyTruthy a then a else b

/-- `_calculate_similarity`: 0.0 when either text is falsy, otherwise the
`SequenceMatcher` ratio of the lower-cased `str(...)` forms. -/
def calculate_similarity (text1 text2 : Val) : ℚ :=
  if !pyTruthy text1 || !pyTruthy text2 then 0
  else sequenceRatio (pyLower (pyStr text1)) (pyLower (pyStr text2))

/-- `TRSH = 0.33`, the fuzzy-match similarity threshold. -/
def TRSH : ℚ := 0.33

/-! ### Configuration column helpers -/

def get_supplier_article_column (cfg : String) : String :=
  if cfg = "vitya" then "article_vitya"
  else if cfg = "dimi" then "article_dimi"
  else "article"

def get_supplier_price_column (cfg : String) : String :=
  if cfg = "vitya" then "price_usd"
  else if cfg = "dimi" then "price_usd"
  else "price"

def get_base_article_column (cfg : String) : String :=
  if cfg = "vitya" then "article_vitya"
  else if cfg = "dimi" then "article_dimi"
  else "article"

def get_base_price_column (cfg : String) : String :=
  if cfg = "vitya" then "price_vitya_usd"
  else if cfg = "dimi" then "price_dimi_usd"
  else "price"

/-! ### Dataframes and dictionaries -/

/-- A pandas dataframe: explicit column list plus rows.  Rows are assumed to
bind exactly the listed columns (a missing binding behaves as an absent
column for `get`, NaN cells are explicit `vNaN` values).  The positional
index is the default `RangeIndex`, so row labels are list positions. -/
structure DFrame where
  cols : List String
  rows : List Row

/-- `df.dropna(subset=...)`: pandas raises `KeyError` when a subset column is
not a column of the frame; otherwise rows with NaN in any subset column are
removed (original index labels are preserved, hence the enumeration). -/
def dropnaSubset (df : DFrame) (subset : List String) : Except String (List (Nat × Row)) :=
  if subset.all (fun c => df.cols.contains c) then
    Except.ok (df.rows.enum.filter (fun p =>
      subset.all (fun c => pdNotna (rowGet p.2 c Val.vNaN))))
  else
    Except.error ("KeyError: " ++ String.intercalate ", "
      (subset.filter (fun c => !df.cols.contains c)))

/-- Numeric view of a cell (`int`/`float` only). -/
def valNum? : Val → Option ℚ
  | Val.vInt n => some (n : ℚ)
  | Val.vRat q => some q
  | _ => none

/-- A stored Python float as `FNum` (floats in our records are `vRat`/`vNaN`;
integers also coerce). -/
def valToFNum : Val → FNum
  | Val.vRat q => some q
  | Val.vInt n => some (n : ℚ)
  | _ => none

/-- `get_base_price_from_config`: the configured base price column when it is
present, non-NaN and strictly positive, else `0.0`.  (A string cell would
raise `TypeError` on the `> 0` comparison in Python; price columns are
numeric and no claim exercises that path.) -/
def get_base_price_from_config (cfg : String) (row : Row) : ℚ :=
  match rowFind row (get_base_price_column cfg) with
  | some v =>
      match valNum? v with
      | some q => if 0 < q then q else 0
      | none => 0
  | none => 0

/-- Python dict assignment `d[k] = v`: overwrite in place, append when new. -/
def dictInsert (d : List (String × Row)) (k : String) (v : Row) : List (String × Row) :=
  if (d.find? (fun p => p.1 = k)).isSome then
    d.map (fun p => if p.1 = k then (k, v) else p)
  else d ++ [(k, v)]

/-- `k in d` / `d[k]` for our dictionaries. -/
def dictFind (d : List (String × Row)) (k : String) : Option Row :=
  (d.find? (fun p => p.1 = k)).map (fun p => p.2)

/-- Python `float(x)`: NaN stays NaN, `None` raises `TypeError`, an
unparsable string raises `ValueError`. -/
def pyFloat (v : Val) : Except String FNum :=
  match v with
  | Val.vNone => Except.error "TypeError: float() argument must not be None"
  | Val.vNaN => Except.ok none
  | Val.vInt n => Except.ok (some (n : ℚ))
  | Val.vRat q => Except.ok (some q)
  | Val.vBool b => Except.ok (some (if b then 1 else 0))
  | Val.vStr s =>
      match pyParseFloat s with
      | some q => Except.ok (some q)
      | none => Except.error "ValueError: could not convert string to float"

/-! ### Name-column detection and the diagnostic fuzzy lookup -/

/-- `_get_base_name_column`. -/
def get_base_name_column (df : DFrame) : Option String :=
  if df.rows.isEmpty then none
  else if df.cols.contains "name" then some "name"
  else if df.cols.contains "Наименование" then some "Наименование"
  else none

/-- `_get_supplier_name_column`, applied to a frame with the given columns. -/
def get_supplier_name_column (cfg : String) (cols : List String) (empty : Bool) :
    Option String :=
  if empty then none
  else if cols.contains "name" then some "name"
  else if cfg = "vitya" then cols.find? (fun c => containsSubstr c.data "Unnamed: 1".data)
  else if cfg = "dimi" then (if 1 < cols.length then cols.get? 1 else none)
  else none

/-- `f"${x:.2f}"` for the diagnostic price string (round to cents; Python
uses round-half-even, which only differs on exact half-cents). -/
def formatDollar (q : ℚ) : String :=
  let cents : Int := round (q * 100)
  let a := cents.natAbs
  "$" ++ (if cents < 0 then "-" else "") ++ toString (a / 100) ++ "." ++
    (if a % 100 < 10 then "0" else "") ++ toString (a % 100)

/-- `find_item_by_fuzzy_matching`: best-effort fuzzy lookup of a supplier
name in the base, returning display strings
`(name, excel_row, color, price)` with `("Не найдено", "N/A", "N/A", "N/A")`
sentinels.  A non-string, non-`None` name would hit `.strip()` and raise
`AttributeError` in Python, modelled as an error. -/
def find_item_by_fuzzy_matching (base_df : DFrame) (supplier_name : Val) :
    Except String (String × String × String × String) :=
  let sentinel := ("Не найдено", "N/A", "N/A", "N/A")
  if base_df.rows.isEmpty then Except.ok sentinel
  else
    match supplier_name with
    | Val.vNone => Except.ok sentinel
    | Val.vStr s =>
        if s = "" || pyStrip s = "" then Except.ok sentinel
        else
          match get_base_name_column base_df with
          | none => Except.ok sentinel
          | some col =>
              let best := base_df.rows.enum.foldl
                (fun (acc : ℚ × Option (String × Nat)) p =>
                  let base_name := pyStrip (pyStr (rowGet p.2 col (Val.vStr "")))
                  if base_name = "" || base_name = "nan" then acc
                  else
                    let ratio := sequenceRatio (pyLower s) (pyLower base_name)
                    if TRSH ≤ ratio && acc.1 < ratio then (ratio, some (base_name, p.1))
                    else acc)
                (0, none)
              match best.2 with
              | none => Except.ok sentinel
              | some (bn, idx) =>
                  let row := (base_df.rows.get? idx).getD []
                  let base_color₀ := safe_color_processing (rowGet row "color" (Val.vStr ""))
                  let base_color := if base_color₀ = "" then "N/A" else base_color₀
                  let priceVal := rowGet row "price_usd" (Val.vInt 0)
                  let base_price :=
                    if pdIsna priceVal then "N/A"
                    else
                      match valNum? priceVal with
                      | some q => formatDollar q
                      | none => "N/A"
                  Except.ok (bn, toString (idx + 2), base_color, base_price)
    | _ => Except.error "AttributeError: strip on non-string name"

/-! ### Stage 1 — `compare_by_articles` -/

/-- The article key: for the "vitya" configuration an `int` cell is used via
`str(...)` directly; otherwise `str(...).strip()`. -/
def article_key (cfg : String) (article_value : Val) : String :=
  if cfg = "vitya" then
    match article_value with
    | Val.vInt n => toString n
    | v => pyStrip (pyStr v)
  else pyStrip (pyStr article_value)

/-- One supplier-dictionary entry (`{"price", "name", "index", "color"}`). -/
def supplier_dict_entry (cfg : String) (idx : Nat) (row : Row) :
    Except String Row := do
  let pv := rowGet row (get_supplier_price_column cfg) Val.vNaN
  let price ← if pdNotna pv then pyFloat pv else pure (some 0)
  pure [("price", fnumVal price),
        ("name", rowGet row "name" (Val.vStr "")),
        ("index", Val.vInt idx),
        ("color", Val.vStr (safe_color_processing (rowGet row "color" Val.vNone)))]

/-- The supplier dictionary: keyed by article string, skipping blank /
`"nan"` / `"None"` keys; later rows with the same key overwrite. -/
def build_supplier_dict (cfg : String) (rows : List (Nat × Row)) :
    Except String (List (String × Row)) :=
  rows.foldlM (fun d p => do
    let article := article_key cfg (rowGet p.2 (get_supplier_article_column cfg) Val.vNaN)
    if article ≠ "" && article ≠ "nan" && article ≠ "None" then
      let entry ← supplier_dict_entry cfg p.1 p.2
      pure (dictInsert d article entry)
    else pure d) []

/-- One base-dictionary entry (price via `get_base_price_from_config`). -/
def base_dict_entry (cfg : String) (idx : Nat) (row : Row) : Row :=
  [("price", Val.vRat (get_base_price_from_config cfg row)),
   ("name", rowGet row "name" (Val.vStr "")),
   ("index", Val.vInt idx),
   ("color", Val.vStr (safe_color_processing (rowGet row "color" Val.vNone)))]

def build_base_dict (cfg : String) (rows : List (Nat × Row)) : List (String × Row) :=
  rows.foldl (fun d p =>
    let article := article_key cfg (rowGet p.2 (get_base_article_column cfg) Val.vNaN)
    if article ≠ "" && article ≠ "nan" && article ≠ "None" then
      dictInsert d article (base_dict_entry cfg p.1 p.2)
    else d) []

/-- The match record built for an article found in both dictionaries:
`price_change_percent` starts as the integer `0` and is overwritten by
`(supplier - base) / base * 100` only when the base price is positive. -/
def article_match_info (article : String) (sdata bdata : Row) : Row :=
  let sp := valToFNum (rowGet sdata "price" Val.vNaN)
  let bpVal := rowGet bdata "price" Val.vNaN
  let bq := (valNum? bpVal).getD 0
  [("article", Val.vStr article),
   ("supplier_price", rowGet sdata "price" Val.vNaN),
   ("base_price", bpVal),
   ("name", pyOr (rowGet sdata "name" Val.vNone) (rowGet bdata "name" Val.vNone)),
   ("price_diff", fnumVal (fnumSub sp (valToFNum bpVal))),
   ("price_change_percent",
     if 0 < bq then fnumVal (percentFormula sp bq) else Val.vInt 0),
   ("base_index", rowGet bdata "index" Val.vNone)]

/-- The provisional new-item record for a supplier article absent from the
base, including the purely diagnostic fuzzy-lookup fields. -/
def new_item_record (cfg : String) (base_df : DFrame) (article : String)
    (sdata : Row) : Except String Row := do
  let fm ← find_item_by_fuzzy_matching base_df (rowGet sdata "name" Val.vNaN)
  pure [("article", Val.vStr article),
        ("price", rowGet sdata "price" Val.vNaN),
        ("name", rowGet sdata "name" Val.vNaN),
        ("color", rowGet sdata "color" (Val.vStr "")),
        ("supplier_article", Val.vStr article),
        ("base_article", Val.vStr ""),
        ("supplier_article_col", Val.vStr (get_supplier_article_column cfg)),
        ("base_article_col", Val.vStr (get_base_article_column cfg)),
        ("fuzzy_match_name", Val.vStr (if fm.1 ≠ "Не найдено" then fm.1 else "")),
        ("fuzzy_match_row", Val.vStr (if fm.2.1 ≠ "N/A" then fm.2.1 else "")),
        ("fuzzy_match_color", Val.vStr (if fm.2.2.1 ≠ "N/A" then fm.2.2.1 else "")),
        ("fuzzy_match_price", Val.vStr (if fm.2.2.2 ≠ "N/A" then fm.2.2.2 else "")),
        ("fuzzy_match_similarity",
          Val.vRat (if fm.1 ≠ "Не найдено" then
            calculate_similarity (rowGet sdata "name" Val.vNaN) (Val.vStr fm.1)
          else 0))]

/-- Result bundle of `compare_by_articles`. -/
structure ArticleResults where
  matches_ : List Row
  price_changes : List Row
  new_items : List Row
  supplier_dict : List (String × Row)
  base_dict : List (String × Row)

/-- The match list: one record per supplier-dictionary key present in the
base dictionary (the source emits it inside a single loop over
`supplier_dict.items()`; splitting the loop into per-output passes keeps each
output's order and contents unchanged). -/
def compare_by_articles_matches (supplier_dict base_dict : List (String × Row)) :
    List Row :=
  supplier_dict.filterMap (fun p =>
    (dictFind base_dict p.1).map (fun bdata => article_match_info p.1 p.2 bdata))

/-- The `> 5%` subset of the matches. -/
def compare_by_articles_price_changes (found : List Row) : List Row :=
  found.filter (fun m => fnumAbsGt (valToFNum (rowGet m "price_change_percent" Val.vNaN)) 5)

/-- The new-items list: supplier-dictionary keys absent from the base. -/
def compare_by_articles_new_items (cfg : String) (base_df : DFrame)
    (supplier_dict base_dict : List (String × Row)) : Except String (List Row) := do
  let opts ← supplier_dict.mapM (fun p =>
    match dictFind base_dict p.1 with
    | some _ => pure none
    | none => (new_item_record cfg base_df p.1 p.2).map some)
  pure (opts.filterMap id)

/-- `compare_by_articles`.  The `dropna` calls raise `KeyError` when the
configured article/price columns are absent from the frames. -/
def compare_by_articles (cfg : String) (supplier_df base_df : DFrame) :
    Except String ArticleResults := do
  let supplier_clean ← dropnaSubset supplier_df
    [get_supplier_article_column cfg, get_supplier_price_column cfg]
  let base_clean ← dropnaSubset base_df [get_base_article_column cfg]
  let supplier_dict ← build_supplier_dict cfg supplier_clean
  let base_dict := build_base_dict cfg base_clean
  let found := compare_by_articles_matches supplier_dict base_dict
  let price_changes := compare_by_articles_price_changes found
  let new_items ← compare_by_articles_new_items cfg base_df supplier_dict base_dict
  pure { matches_ := found, price_changes := price_changes, new_items := new_items,
         supplier_dict := supplier_dict, base_dict := base_dict }

/-! ### Variant Disambiguator and Stages 2-3 -/

/-- `Option String` capacities as stored in variant records (`None` or the
digit string). -/
def optValStr : Option String → Val
  | some s => Val.vStr s
  | none => Val.vNone

/-- Grouping-dictionary append: `d.setdefault(k, []).append(v)` shape used by
both advanced stages (`if code not in codes: codes[code] = []` then
`codes[code].append(...)`). -/
def groupInsert (d : List (String × List Row)) (k : String) (v : Row) :
    List (String × List Row) :=
  if (d.find? (fun p => p.1 = k)).isSome then
    d.map (fun p => if p.1 = k then (p.1, p.2 ++ [v]) else p)
  else d ++ [(k, [v])]

def groupFind (d : List (String × List Row)) (k : String) : Option (List Row) :=
  (d.find? (fun p => p.1 = k)).map (fun p => p.2)

/-- The color/capacity disambiguation block that both
`compare_by_bracket_codes_advanced` and `compare_by_product_code_advanced`
contain verbatim (src/main.py 2594-2651 and 2339-2396): scan the base
variants for (1) color and capacity equal, then (2) color equal, then
(3) capacity equal, each taking the first hit in list order; otherwise
(4) fall back to the first variant with both flags `False`.  `None` when the
group is empty. -/
def pick_best_variant (supplier_color supplier_capacity : Val)
    (base_variants : List Row) : Option (Row × Bool × Bool) :=
  match base_variants.find? (fun bv =>
      pyEq supplier_color (rowGet bv "color" Val.vNone) &&
        pyEq supplier_capacity (rowGet bv "capacity" Val.vNone)) with
  | some bv => some (bv, true, true)
  | none =>
      match base_variants.find? (fun bv =>
          pyEq supplier_color (rowGet bv "color" Val.vNone)) with
      | some bv => some (bv, true, false)
      | none =>
          match base_variants.find? (fun bv =>
              pyEq supplier_capacity (rowGet bv "capacity" Val.vNone)) with
          | some bv => some (bv, false, true)
          | none =>
              match base_variants with
              | bv :: _ => some (bv, false, false)
              | [] => none

/-- The "only new items" filter of the advanced stages: skip a supplier row
whose `str(row.get(f"article_{cfg}", ""))` is not among the articles of the
(truthy) `new_items_list`. -/
def is_new_article (new_items : Option (List Row)) (article_key_s : String) : Bool :=
  match new_items with
  | none => true
  | some l =>
      if l.isEmpty then true
      else (l.map (fun r => rowGet r "article" Val.vNone)).any
        (fun v => pyEq v (Val.vStr article_key_s))

/-- Supplier-side variant grouping shared by stages 2 and 3 (the only
difference is the extractor). -/
def supplier_variants (extract : Val → Option String) (cfg : String)
    (new_items : Option (List Row)) (rows : List (Nat × Row)) :
    List (String × List Row) :=
  rows.foldl (fun d p =>
    let row := p.2
    if rowHas row "name" && pdNotna (rowGet row "name" Val.vNaN) then
      let akey := pyStr (rowGet row ("article_" ++ cfg) (Val.vStr ""))
      if !is_new_article new_items akey then d
      else
        match extract (rowGet row "name" Val.vNaN) with
        | some code =>
            let price_float := pyFloatOrZero (rowGet row "price_usd" (Val.vInt 0))
            groupInsert d code
              [("index", Val.vInt p.1),
               ("name", rowGet row "name" Val.vNaN),
               ("price", fnumVal price_float),
               ("article", rowGet row ("article_" ++ cfg) (Val.vStr "")),
               ("color", Val.vStr (safe_color_processing (rowGet row "color" Val.vNone))),
               ("capacity", optValStr (find_battery_capacity (rowGet row "name" Val.vNaN)))]
        | none => d
    else d) []

/-- Base-side variant grouping for stage 2 (bracket codes): one insertion for
a code found in the name (tagged `matched_in = "name"`), plus one per
supplier article column containing a bracket code (tagged with the column). -/
def base_bracket_variants (rows : List (Nat × Row)) : List (String × List Row) :=
  rows.foldl (fun d p =>
    let row := p.2
    let d1 :=
      if rowHas row "name" && pdNotna (rowGet row "name" Val.vNaN) then
        match find_product_code_in_brackets (rowGet row "name" Val.vNaN) with
        | some code =>
            groupInsert d code
              [("index", Val.vInt p.1),
               ("name", rowGet row "name" Val.vNaN),
               ("price", fnumVal (pyFloatOrZero (rowGet row "price" (Val.vInt 0)))),
               ("article", rowGet row "article" (Val.vStr "")),
               ("matched_in", Val.vStr "name"),
               ("color", Val.vStr (safe_color_processing (rowGet row "color" Val.vNone))),
               ("capacity", optValStr (find_battery_capacity (rowGet row "name" Val.vNaN)))]
        | none => d
      else d
    ["vitya", "dimi", "mila"].foldl (fun d2 sup =>
      let col := "article_" ++ sup
      if rowHas row col && pdNotna (rowGet row col Val.vNaN) then
        match find_product_code_in_brackets
            (Val.vStr (pyStr (rowGet row col Val.vNaN))) with
        | some code =>
            groupInsert d2 code
              [("index", Val.vInt p.1),
               ("name", rowGet row "name" Val.vNaN),
               ("price", fnumVal (pyFloatOrZero (rowGet row "price" (Val.vInt 0)))),
               ("article", rowGet row "article" (Val.vStr "")),
               ("matched_in", Val.vStr col),
               ("color", Val.vStr (safe_color_processing (rowGet row "color" Val.vNone))),
               ("capacity", optValStr (find_battery_capacity (rowGet row "name" Val.vNaN)))]
        | none => d2
      else d2) d1) []

/-- Base-side variant grouping for stage 3 (unified codes).  The
`price_vitya/dimi/mila_usd` floats referenced by the article-column insertion
(src/main.py 2319-2321) are whatever the name-branch last assigned — Python
local-variable staleness that the threaded accumulator reproduces (an
initial value of `0.0` stands in for the `NameError` a never-assigned
reference would raise; no claim exercises that corner). -/
def base_code_variants (rows : List (Nat × Row)) : List (String × List Row) :=
  (rows.foldl (fun (st : List (String × List Row) × FNum × FNum × FNum) p =>
    let row := p.2
    let d := st.1
    let hasName := rowHas row "name" && pdNotna (rowGet row "name" Val.vNaN)
    let codeOfName :=
      if hasName then find_product_code_unified (rowGet row "name" Val.vNaN) else none
    let prices :=
      match codeOfName with
      | some _ =>
          (pyFloatOrZero (rowGet row "price_vitya_usd" (Val.vInt 0)),
           pyFloatOrZero (rowGet row "price_dimi_usd" (Val.vInt 0)),
           pyFloatOrZero (rowGet row "price_mila_usd" (Val.vInt 0)))
      | none => st.2
    let d1 :=
      match codeOfName with
      | some code =>
          groupInsert d code
            [("index", Val.vInt p.1),
             ("name", rowGet row "name" Val.vNaN),
             ("price", fnumVal (pyFloatOrZero (rowGet row "price" (Val.vInt 0)))),
             ("article", rowGet row "article" (Val.vStr "")),
             ("color", Val.vStr (safe_color_processing (rowGet row "color" Val.vNone))),
             ("capacity", optValStr (find_battery_capacity (rowGet row "name" Val.vNaN))),
             ("price_vitya_usd", fnumVal prices.1),
             ("price_dimi_usd", fnumVal prices.2.1),
             ("price_mila_usd", fnumVal prices.2.2)]
      | none => d
    let d2 := ["vitya", "dimi", "mila"].foldl (fun dd sup =>
      let col := "article_" ++ sup
      if rowHas row col && pdNotna (rowGet row col Val.vNaN) then
        match find_product_code_unified (Val.vStr (pyStr (rowGet row col Val.vNaN))) with
        | some code =>
            groupInsert dd code
              [("index", Val.vInt p.1),
               ("name", rowGet row "name" Val.vNaN),
               ("price", fnumVal (pyFloatOrZero (rowGet row "price" (Val.vInt 0)))),
               ("article", rowGet row "article" (Val.vStr "")),
               ("color", Val.vStr (safe_color_processing (rowGet row "color" Val.vNone))),
               ("capacity", optValStr (find_battery_capacity (rowGet row "name" Val.vNaN))),
               ("price_vitya_usd", fnumVal prices.1),
               ("price_dimi_usd", fnumVal prices.2.1),
               ("price_mila_usd", fnumVal prices.2.2)]
        | none => dd
      else dd) d1
    (d2, prices)) ([], (some 0, some 0, some 0))).1

/-- The match record of stage 2 (`match_type = "bracket_code"`):
`price_change_percent` starts as the integer `0` and is overwritten only for
a positive configured base price. -/
def bracket_match_info (cfg : String) (code : String) (sv : Row)
    (pick : Row × Bool × Bool) : Row :=
  let bm := pick.1
  let base_price := get_base_price_from_config cfg bm
  let sp := valToFNum (rowGet sv "price" Val.vNaN)
  [("code", Val.vStr code),
   ("supplier_name", rowGet sv "name" Val.vNone),
   ("base_name", rowGet bm "name" Val.vNone),
   ("supplier_price", rowGet sv "price" Val.vNaN),
   ("base_price", Val.vRat base_price),
   ("supplier_article", rowGet sv "article" Val.vNone),
   ("base_article", rowGet bm "article" Val.vNone),
   ("supplier_color", rowGet sv "color" Val.vNone),
   ("base_color", rowGet bm "color" Val.vNone),
   ("supplier_capacity", rowGet sv "capacity" Val.vNone),
   ("base_capacity", rowGet bm "capacity" Val.vNone),
   ("matched_in", rowGet bm "matched_in" Val.vNone),
   ("base_index", rowGet bm "index" Val.vNone),
   ("match_type", Val.vStr "bracket_code"),
   ("color_match", Val.vBool pick.2.1),
   ("capacity_match", Val.vBool pick.2.2),
   ("price_change_percent",
     if 0 < base_price then fnumVal (percentFormula sp base_price) else Val.vInt 0)]

/-- The match record of stage 3 (`match_type = "product_code"`). -/
def code_match_info (cfg : String) (code : String) (sv : Row)
    (pick : Row × Bool × Bool) : Row :=
  let bm := pick.1
  let base_price := get_base_price_from_config cfg bm
  let sp := valToFNum (rowGet sv "price" Val.vNaN)
  [("code", Val.vStr code),
   ("supplier_name", rowGet sv "name" Val.vNone),
   ("base_name", rowGet bm "name" Val.vNone),
   ("supplier_price", rowGet sv "price" Val.vNaN),
   ("base_price", Val.vRat base_price),
   ("supplier_article", rowGet sv "article" Val.vNone),
   ("base_article", rowGet bm "article" Val.vNone),
   ("supplier_color", rowGet sv "color" Val.vNone),
   ("base_color", rowGet bm "color" Val.vNone),
   ("supplier_capacity", rowGet sv "capacity" Val.vNone),
   ("base_capacity", rowGet bm "capacity" Val.vNone),
   ("base_index", rowGet bm "index" Val.vNone),
   ("match_type", Val.vStr "product_code"),
   ("color_match", Val.vBool pick.2.1),
   ("capacity_match", Val.vBool pick.2.2),
   ("price_change_percent",
     if 0 < base_price then fnumVal (percentFormula sp base_price) else Val.vInt 0)]

/-- The per-code matching loop shared by stages 2 and 3: for every supplier
variant of a code also present on the base side, disambiguate and emit one
record (`best_match` is always found because base groups are non-empty). -/
def advanced_matches (mk : String → Row → Row × Bool × Bool → Row)
    (supplier_codes base_codes : List (String × List Row)) : List Row :=
  supplier_codes.flatMap (fun p =>
    match groupFind base_codes p.1 with
    | some base_variants =>
        p.2.filterMap (fun sv =>
          (pick_best_variant (rowGet sv "color" Val.vNone)
            (rowGet sv "capacity" Val.vNone) base_variants).map (mk p.1 sv))
    | none => [])

/-- `compare_by_bracket_codes_advanced`. -/
def compare_by_bracket_codes_advanced (cfg : String) (supplier_df base_df : DFrame)
    (new_items : Option (List Row)) : List Row :=
  advanced_matches (bracket_match_info cfg)
    (supplier_variants find_product_code_in_brackets cfg new_items supplier_df.rows.enum)
    (base_bracket_variants base_df.rows.enum)

/-- `compare_by_product_code_advanced`. -/
def compare_by_product_code_advanced (cfg : String) (supplier_df base_df : DFrame)
    (new_items : Option (List Row)) : List Row :=
  advanced_matches (code_match_info cfg)
    (supplier_variants find_product_code_unified cfg new_items supplier_df.rows.enum)
    (base_code_variants base_df.rows.enum)

/-! ### Stage 4 — `compare_by_fuzzy_string_matching` -/

/-- The `base_names` list: rows whose name column is present and non-NaN,
projected to `{index, name, price, article, color}`. -/
def fuzzy_base_names (base_df : DFrame) (col : String) : List Row :=
  base_df.rows.enum.filterMap (fun p =>
    if rowHas p.2 col && pdNotna (rowGet p.2 col Val.vNaN) then
      some [("index", Val.vInt p.1),
            ("name", Val.vStr (pyStrip (pyStr (rowGet p.2 col Val.vNaN)))),
            ("price", rowGet p.2 "price" (Val.vInt 0)),
            ("article", rowGet p.2 "article" (Val.vStr "")),
            ("color", Val.vStr (safe_color_processing (rowGet p.2 "color" Val.vNone)))]
    else none)

/-- The similarity `difflib.SequenceMatcher(None, candidate_name.lower(),
base_item["name"].lower()).ratio()` that the stage-4 inner loop computes for
one base record. -/
def fuzzyRatio (candidate_name : String) (item : Row) : ℚ :=
  sequenceRatio (pyLower candidate_name)
    (pyLower (pyStr (rowGet item "name" (Val.vStr ""))))

/-- One iteration of the stage-4 inner loop: update the running
`(best_match, best_ratio)` pair when `ratio >= TRSH and ratio > best_ratio`. -/
def bestFuzzyStep (candidate_name : String) (acc : Option Row × ℚ)
    (item : Row) : Option Row × ℚ :=
  if TRSH ≤ fuzzyRatio candidate_name item && acc.2 < fuzzyRatio candidate_name item
  then (some item, fuzzyRatio candidate_name item) else acc

/-- The candidate's inner loop: best match and ratio, starting from
`best_match = None, best_ratio = 0`. -/
def best_fuzzy_for (candidate_name : String) (base_names : List Row) :
    Option Row × ℚ :=
  base_names.foldl (bestFuzzyStep candidate_name) (none, 0)

/-- The fuzzy match record.  `supplier_price` reads the candidate's
`price_usd` key with default `0`. -/
def fuzzy_match_info (candidate : Row) (candidate_name : String) (best : Row)
    (best_ratio : ℚ) : Row :=
  [("supplier_index", rowGet candidate "index" (Val.vInt 0)),
   ("supplier_name", Val.vStr candidate_name),
   ("supplier_price", rowGet candidate "price_usd" (Val.vInt 0)),
   ("supplier_article", rowGet candidate "article" (Val.vStr "")),
   ("supplier_color", Val.vStr (safe_color_processing (rowGet candidate "color" Val.vNone))),
   ("base_index", rowGet best "index" Val.vNone),
   ("base_name", rowGet best "name" Val.vNone),
   ("base_price", rowGet best "price" Val.vNone),
   ("base_article", rowGet best "article" Val.vNone),
   ("base_color", rowGet best "color" Val.vNone),
   ("similarity_ratio", Val.vRat best_ratio),
   ("match_type", Val.vStr "fuzzy_string"),
   ("matched_in", Val.vStr "name")]

/-- `compare_by_fuzzy_string_matching` on a list of candidate records:
empty candidates, an empty base, or an undetectable base name column yield
zero matches (logged, not raised). -/
def compare_by_fuzzy_string_matching (cfg : String) (fuzzy_candidates : List Row)
    (base_df : DFrame) : List Row :=
  if fuzzy_candidates.isEmpty then []
  else if base_df.rows.isEmpty then []
  else
    match get_base_name_column base_df with
    | none => []
    | some col =>
        let base_names := fuzzy_base_names base_df col
        fuzzy_candidates.filterMap (fun candidate =>
          match get_supplier_name_column cfg (candidate.map Prod.fst)
              candidate.isEmpty with
          | none => none
          | some ncol =>
              if !rowHas candidate ncol then none
              else
                let candidate_name := pyStrip (pyStr (rowGet candidate ncol Val.vNaN))
                match best_fuzzy_for candidate_name base_names with
                | (some best, best_ratio) =>
                    some (fuzzy_match_info candidate candidate_name best best_ratio)
                | (none, _) => none)

/-! ### `perform_comparison` — the four-stage pipeline -/

/-- The three diagnostic columns `perform_comparison` adds to the
unmatched-pool dataframe before stages 2-4. -/
def unmatched_row (r : Row) : Row :=
  r ++ [("search_status", Val.vStr "no_article_match"),
        ("found_by", Val.vNone),
        ("similarity_score", Val.vNone)]

/-- The report structure returned by `perform_comparison`. -/
structure ComparisonResult where
  supplier_total : Nat
  base_total : Nat
  matches_ : List Row
  price_changes : List Row
  new_items : List Row
  code_matches : List Row
  bracket_matches : List Row
  fuzzy_matches : List Row
  fuzzy_candidates : List Row
  unmatched_count : Nat
  match_rate : ℚ
  deriving DecidableEq, Repr

/-- Remove pool rows whose `article` column equals (`isin`) one of the
claimed `supplier_article` values. -/
def remove_by_article (pool : List (Nat × Row)) (found : List Val) :
    List (Nat × Row) :=
  pool.filter (fun p => !(found.any (fun v => pyEq (rowGet p.2 "article" Val.vNaN) v)))

/-- The `unmatched_df` pool built from the provisional new items before
stages 2-4 (a dataframe with `RangeIndex` labels assigned at creation and
preserved by the filters; `to_dict("records")` drops the labels). -/
def pipeline_pool0 (new_items : List Row) : List (Nat × Row) :=
  (new_items.map unmatched_row).enum

/-- Stage 2 of `perform_comparison`: bracket-code matches, skipped on an
empty pool. -/
def pipeline_bracket_matches (cfg : String) (supplier_df base_df : DFrame)
    (new_items : List Row) : List Row :=
  if (pipeline_pool0 new_items).isEmpty then []
  else compare_by_bracket_codes_advanced cfg supplier_df base_df (some new_items)

/-- The pool after stage 2's `isin` removal of claimed supplier articles. -/
def pipeline_pool1 (cfg : String) (supplier_df base_df : DFrame)
    (new_items : List Row) : List (Nat × Row) :=
  if (pipeline_bracket_matches cfg supplier_df base_df new_items).isEmpty then
    pipeline_pool0 new_items
  else
    remove_by_article (pipeline_pool0 new_items)
      ((pipeline_bracket_matches cfg supplier_df base_df new_items).filterMap
        (fun m => rowFind m "supplier_article"))

/-- Stage 3 of `perform_comparison`: generic-code matches, skipped on an
empty pool. -/
def pipeline_code_matches (cfg : String) (supplier_df base_df : DFrame)
    (new_items : List Row) : List Row :=
  if (pipeline_pool1 cfg supplier_df base_df new_items).isEmpty then []
  else compare_by_product_code_advanced cfg supplier_df base_df (some new_items)

/-- The pool after stage 3's removal. -/
def pipeline_pool2 (cfg : String) (supplier_df base_df : DFrame)
    (new_items : List Row) : List (Nat × Row) :=
  if (pipeline_code_matches cfg supplier_df base_df new_items).isEmpty then
    pipeline_pool1 cfg supplier_df base_df new_items
  else
    remove_by_article (pipeline_pool1 cfg supplier_df base_df new_items)
      ((pipeline_code_matches cfg supplier_df base_df new_items).filterMap
        (fun m => rowFind m "supplier_article"))

/-- The stage-4 candidate records (`to_dict("records")` of the remaining
pool). -/
def pipeline_fuzzy_candidates (cfg : String) (supplier_df base_df : DFrame)
    (new_items : List Row) : List Row :=
  (pipeline_pool2 cfg supplier_df base_df new_items).map (fun p => p.2)

/-- Stage 4 of `perform_comparison`: fuzzy name matches, skipped on an empty
candidate list. -/
def pipeline_fuzzy_matches (cfg : String) (supplier_df base_df : DFrame)
    (new_items : List Row) : List Row :=
  if (pipeline_fuzzy_candidates cfg supplier_df base_df new_items).isEmpty then []
  else compare_by_fuzzy_string_matching cfg
    (pipeline_fuzzy_candidates cfg supplier_df base_df new_items) base_df

/-- The final pool after stage 4's removal by `supplier_index`. -/
def pipeline_pool3 (cfg : String) (supplier_df base_df : DFrame)
    (new_items : List Row) : List (Nat × Row) :=
  if (pipeline_fuzzy_matches cfg supplier_df base_df new_items).isEmpty then
    pipeline_pool2 cfg supplier_df base_df new_items
  else
    (pipeline_pool2 cfg supplier_df base_df new_items).filter (fun p =>
      !(((pipeline_fuzzy_matches cfg supplier_df base_df new_items).filterMap
          (fun m => rowFind m "supplier_index")).any
        (fun v => pyEq (Val.vInt p.1) v)))

/-- `perform_comparison`: stage 1, then the pool-narrowing stages 2-4 over
the provisional new items. -/
def perform_comparison (cfg : String) (supplier_df base_df : DFrame) :
    Except String ComparisonResult := do
  let ar ← compare_by_articles cfg supplier_df base_df
  pure { supplier_total := ar.supplier_dict.length
         base_total := ar.base_dict.length
         matches_ := ar.matches_
         price_changes := ar.price_changes
         new_items := ar.new_items
         code_matches := pipeline_code_matches cfg supplier_df base_df ar.new_items
         bracket_matches := pipeline_bracket_matches cfg supplier_df base_df ar.new_items
         fuzzy_matches := pipeline_fuzzy_matches cfg supplier_df base_df ar.new_items
         fuzzy_candidates :=
           (pipeline_pool3 cfg supplier_df base_df ar.new_items).map (fun p => p.2)
         unmatched_count := (pipeline_pool3 cfg supplier_df base_df ar.new_items).length
         match_rate :=
           if ar.supplier_dict.isEmpty then 0
           else (ar.matches_.length : ℚ) / (ar.supplier_dict.length : ℚ) * 100 }

/-- `isPySpace` as a predicate on the code point. -/
def spaceNat (n : Nat) : Bool :=
  n = 32 || n = 9 || n = 10 || n = 13 || n = 11 || n = 12

/-- The character class `[A-Za-z0-9\\-]` that the specification prescribes for
bracket codes (Latin letters, digits and hyphen only; the source regex also
admits Cyrillic letters). -/
def latinBracketChar (c : Char) : Bool :=
  ('A' ≤ c && c ≤ 'Z') || ('a' ≤ c && c ≤ 'z') || isAsciiDigit c || c = '-'

/-- Tier rank of a base variant against the supplier's normalized color and
capacity: 3 = both equal, 2 = color only, 1 = capacity only, 0 = neither.
The disambiguation block prefers higher ranks and, within a rank, earlier
list positions. -/
def variantRank (sc scap : Val) (bv : Row) : Nat :=
  (if pyEq sc (rowGet bv "color" Val.vNone) then 2 else 0) +
  (if pyEq scap (rowGet bv "capacity" Val.vNone) then 1 else 0)

/-- A base variant whose color differs from the supplier's. -/
def bvRed : Row := [("color", Val.vStr "red"), ("capacity", Val.vStr "5000")]

/-- A base variant whose color equals the supplier's but whose capacity
differs. -/
def bvBlack : Row := [("color", Val.vStr "black"), ("capacity", Val.vStr "5000")]

/-- A candidate name of 33 identical characters. -/
def fuzzyA : String := String.mk (List.replicate 33 'x')

/-- A base name of total length 167 sharing a 33-character block with
`fuzzyA`, so that the `SequenceMatcher` ratio is exactly
`2 * 33 / (33 + 167) = 33/100 = TRSH`. -/
def fuzzyB : String := String.mk (List.replicate 33 'x' ++ List.replicate 134 'z')

/-- A `base_names` record carrying `fuzzyB` as its name. -/
def fuzzyItemB : Row := [("name", Val.vStr fuzzyB)]

/-- A supplier variant record with price 10, for exercising the percent
formula. -/
def c4sv : Row := [("price", Val.vInt 10)]

/-- A base variant record with configured vitya price 8. -/
def c4bm : Row := [("price_vitya_usd", Val.vRat 8)]

/-- A two-row supplier frame: one row with a bracket-coded name, one inert
row. -/
def c1_supplier : DFrame :=
  { cols := ["name", "article_vitya", "price_usd", "color"],
    rows := [
      [("name", Val.vStr "Power Bank (XM123)"), ("article_vitya", Val.vStr "A1"),
       ("price_usd", Val.vRat 10), ("color", Val.vStr "black")],
      [("name", Val.vStr "zzz qqq"), ("article_vitya", Val.vStr "A2"),
       ("price_usd", Val.vRat 5), ("color", Val.vNaN)]] }

/-- A one-row base frame matching the first `c1_supplier` row by bracket code
and by generic code. -/
def c1_base : DFrame :=
  { cols := ["name", "article_vitya", "price_vitya_usd", "color", "article"],
    rows := [
      [("name", Val.vStr "Powerbank (XM123) black"), ("article_vitya", Val.vStr "B9"),
       ("price_vitya_usd", Val.vRat 8), ("color", Val.vStr "black"),
       ("article", Val.vStr "BASE1")]] }

/-- A two-row supplier frame whose second row fuzzy-matches the base row by
name only. -/
def c10_supplier : DFrame :=
  { cols := ["name", "article_vitya", "price_usd"],
    rows := [
      [("name", Val.vStr "zzz qqq"), ("article_vitya", Val.vStr "A2"),
       ("price_usd", Val.vRat 5)],
      [("name", Val.vStr "Blue Widget Pro"), ("article_vitya", Val.vStr "A3"),
       ("price_usd", Val.vRat 7)]] }

/-- A one-row base frame for the fuzzy scenario, with both a configured vitya
price and a `price` column. -/
def c10_base : DFrame :=
  { cols := ["name", "article_vitya", "price_vitya_usd", "price", "article"],
    rows := [
      [("name", Val.vStr "Widget Pro Blue"), ("article_vitya", Val.vStr "B1"),
       ("price_vitya_usd", Val.vRat 3), ("price", Val.vRat 4),
       ("article", Val.vStr "BASE2")]] }

/-- A supplier frame lacking the configured `price_usd` column. -/
def c6_supplier : DFrame :=
  { cols := ["name", "article_vitya"],
    rows := [[("name", Val.vStr "Power Bank (XM123)"),
              ("article_vitya", Val.vStr "A1")]] }

/-! ## Theorems

Character- and string-level support lemmas, then one theorem per claim. -/

theorem char_toNat_inj {a b : Char} : a = b ↔ a.toNat = b.toNat := by
  constructor
  · intro h; rw [h]
  · intro h; exact Char.eq_of_val_eq (UInt32.toNat.inj h)

theorem char_le_iff_toNat {a b : Char} : a ≤ b ↔ a.toNat ≤ b.toNat := by
  rw [Char.le_def, UInt32.le_def, BitVec.le_def]; rfl

theorem uval_eq_iff_toNat {a : Char} {n : UInt32} : (a.val = n) ↔ a.toNat = n.toNat := by
  constructor
  · intro h; rw [Char.toNat, h]
  · intro h; exact UInt32.toNat.inj h

theorem uval_le_iff_toNat {n : UInt32} {a : Char} : (n ≤ a.val) ↔ n.toNat ≤ a.toNat := by
  rw [UInt32.le_def, BitVec.le_def]; rfl

theorem uval_ge_iff_toNat {n : UInt32} {a : Char} : (a.val ≤ n) ↔ a.toNat ≤ n.toNat := by
  rw [UInt32.le_def, BitVec.le_def]; rfl

theorem char_ofNat_toNat {n : Nat} (h : n < 55296) : (Char.ofNat n).toNat = n := by
  simp [Char.ofNat, Nat.isValidChar, h, Char.ofNatAux, Char.toNat, UInt32.toNat, UInt32.ofNat']

theorem isPySpace_eq_spaceNat (c : Char) : isPySpace c = spaceNat c.toNat := by
  simp only [isPySpace, spaceNat, char_toNat_inj, uval_eq_iff_toNat]
  rfl

/-- The code point of `pyLowerChar`. -/
theorem pyLowerChar_toNat (c : Char) :
    (pyLowerChar c).toNat =
      if 65 ≤ c.toNat ∧ c.toNat ≤ 90 then c.toNat + 32
      else if 1040 ≤ c.toNat ∧ c.toNat ≤ 1071 then c.toNat + 32
      else if c.toNat = 1025 then 1105
      else c.toNat := by
  unfold pyLowerChar
  simp only [char_le_iff_toNat, uval_le_iff_toNat, uval_ge_iff_toNat, uval_eq_iff_toNat,
    Bool.and_eq_true, decide_eq_true_eq]
  have e1 : ('A').toNat = 65 := rfl
  have e2 : ('Z').toNat = 90 := rfl
  have e3 : (0x410 : UInt32).toNat = 1040 := rfl
  have e4 : (0x42F : UInt32).toNat = 1071 := rfl
  have e5 : (0x401 : UInt32).toNat = 1025 := rfl
  rw [e1, e2, e3, e4, e5]
  split
  case isTrue h => rw [char_ofNat_toNat (by omega)]
  case isFalse h1 =>
    split
    case isTrue h => rw [char_ofNat_toNat (by omega)]
    case isFalse h2 =>
      split
      case isTrue h => rw [char_ofNat_toNat (by norm_num)]
      case isFalse h3 => rfl

theorem isPySpace_pyLowerChar (c : Char) : isPySpace (pyLowerChar c) = isPySpace c := by
  rw [isPySpace_eq_spaceNat, isPySpace_eq_spaceNat, pyLowerChar_toNat]
  split
  · next h =>
    have l : spaceNat (c.toNat + 32) = false := by simp [spaceNat]; omega
    have r : spaceNat c.toNat = false := by simp [spaceNat]; omega
    rw [l, r]
  · split
    · next h =>
      have l : spaceNat (c.toNat + 32) = false := by simp [spaceNat]; omega
      have r : spaceNat c.toNat = false := by simp [spaceNat]; omega
      rw [l, r]
    · split
      · next h =>
        have l : spaceNat 1105 = false := by simp [spaceNat]
        have r : spaceNat c.toNat = false := by simp [spaceNat]; omega
        rw [l, r]
      · rfl

/-- Lower-cased code points are outside every range `pyLowerChar` maps. -/
theorem pyLowerChar_out (c : Char) :
    ¬(65 ≤ (pyLowerChar c).toNat ∧ (pyLowerChar c).toNat ≤ 90) ∧
      ¬(1040 ≤ (pyLowerChar c).toNat ∧ (pyLowerChar c).toNat ≤ 1071) ∧
      (pyLowerChar c).toNat ≠ 1025 := by
  rw [pyLowerChar_toNat]
  split
  · next h => refine ⟨by omega, by omega, by omega⟩
  · split
    · next h => refine ⟨by omega, by omega, by omega⟩
    · split
      · next h => refine ⟨by omega, by omega, by omega⟩
      · next h1 h2 h3 => refine ⟨h1, h2, h3⟩

theorem pyLowerChar_idem (c : Char) : pyLowerChar (pyLowerChar c) = pyLowerChar c := by
  rw [char_toNat_inj, pyLowerChar_toNat (pyLowerChar c)]
  have h := pyLowerChar_out c
  rw [if_neg h.1, if_neg h.2.1, if_neg h.2.2]

theorem dropWhile_map_char (f : Char → Char) (p : Char → Bool)
    (hf : ∀ c, p (f c) = p c) : ∀ (l : List Char),
    (l.map f).dropWhile p = (l.dropWhile p).map f := by
  intro l
  induction l with
  | nil => rfl
  | cons x xs ih =>
    by_cases h : p x
    · simp [List.dropWhile_cons, h, hf, ih]
    · simp [List.dropWhile_cons, h, hf]

theorem dropWhile_head?_false (p : Char → Bool) :
    ∀ (l : List Char) (x : Char), (l.dropWhile p).head? = some x → p x = false := by
  intro l
  induction l with
  | nil => intro x h; simp [List.dropWhile] at h
  | cons a as ih =>
    intro x h
    by_cases ha : p a
    · rw [List.dropWhile_cons_of_pos ha] at h
      exact ih x h
    · rw [List.dropWhile_cons_of_neg ha] at h
      simp at h
      rw [← h]
      exact Bool.eq_false_iff.mpr ha

theorem dropWhile_of_head?_false (p : Char → Bool) (l : List Char)
    (h : ∀ x, l.head? = some x → p x = false) : l.dropWhile p = l := by
  cases l with
  | nil => rfl
  | cons a as =>
    have := h a (by simp)
    rw [List.dropWhile_cons_of_neg (by simp [this])]

theorem dropWhile_dropWhile (p : Char → Bool) (l : List Char) :
    (l.dropWhile p).dropWhile p = l.dropWhile p := by
  apply dropWhile_of_head?_false
  intro x hx
  exact dropWhile_head?_false p l x hx

theorem dropWhile_ne_nil_getLast? (p : Char → Bool) (l : List Char)
    (h : l.dropWhile p ≠ []) : (l.dropWhile p).getLast? = l.getLast? := by
  induction l with
  | nil => simp [List.dropWhile] at h
  | cons a as ih =>
    by_cases ha : p a
    · rw [List.dropWhile_cons_of_pos ha] at h ⊢
      rw [ih h]
      have hne : as ≠ [] := by
        intro e; rw [e] at h; simp [List.dropWhile] at h
      cases as with
      | nil => exact absurd rfl hne
      | cons b bs => simp [List.getLast?_cons_cons]
    · rw [List.dropWhile_cons_of_neg ha]

theorem pyStrip_idem (s : String) : pyStrip (pyStrip s) = pyStrip s := by
  unfold pyStrip
  simp only
  generalize hm : s.data.dropWhile isPySpace = m
  generalize hu : m.reverse.dropWhile isPySpace = u
  have step1 : u.reverse.dropWhile isPySpace = u.reverse := by
    apply dropWhile_of_head?_false
    intro x hx
    rw [List.head?_reverse] at hx
    by_cases hue : u = []
    · rw [hue] at hx; simp at hx
    · rw [← hu] at hx hue
      rw [dropWhile_ne_nil_getLast? _ _ hue] at hx
      rw [List.getLast?_reverse] at hx
      rw [← hm] at hx
      exact dropWhile_head?_false _ _ _ hx
  rw [step1]
  rw [List.reverse_reverse, ← hu, dropWhile_dropWhile, hu]

theorem pyStrip_pyLower_comm (s : String) : pyStrip (pyLower s) = pyLower (pyStrip s) := by
  unfold pyStrip pyLower
  simp only
  rw [dropWhile_map_char _ _ isPySpace_pyLowerChar, ← List.map_reverse,
    dropWhile_map_char _ _ isPySpace_pyLowerChar, ← List.map_reverse]

theorem pyLower_idem (s : String) : pyLower (pyLower s) = pyLower s := by
  unfold pyLower
  simp only [List.map_map]
  congr 1
  apply List.map_congr_left
  intro a _
  exact pyLowerChar_idem a

theorem pyLower_empty_iff (s : String) : pyLower s = "" ↔ s = "" := by
  unfold pyLower
  constructor
  · intro h
    have h2 : (s.data.map pyLowerChar) = [] := by
      have := congrArg String.data h
      simpa using this
    rcases s with ⟨d⟩
    simp only [List.map_eq_nil_iff] at h2
    simp [h2]
  · intro h; rw [h]; rfl

/-- The let-free equation of `safe_color_processing`. -/
theorem safe_color_processing_eq (w : Val) : safe_color_processing w =
    if (w = Val.vNone || pdIsna w) then ""
    else if (pyStrip (pyStr w) = "" || pyLower (pyStrip (pyStr w)) = "nan" ||
        pyLower (pyStrip (pyStr w)) = "none") then ""
    else pyLower (pyStrip (pyStr w)) := rfl

theorem safe_color_processing_empty : safe_color_processing (Val.vStr "") = "" := by
  simp [safe_color_processing, pdIsna, pyStr, pyStrip, List.dropWhile]

/-- C9: `safe_color_processing` (the color normalizer) is total over all cell
values — `None`/NaN/blank/`"nan"`/`"none"` map to the empty string, any other
value maps to the lower-cased, stripped `str(...)` — and it is idempotent:
feeding its output back in returns the output unchanged. -/
theorem normalize_color_total_and_idempotent :
    (∀ v : Val, safe_color_processing (Val.vStr (safe_color_processing v)) =
      safe_color_processing v) ∧
    safe_color_processing Val.vNone = "" ∧
    safe_color_processing Val.vNaN = "" ∧
    (∀ s : String, pyStrip s = "" → safe_color_processing (Val.vStr s) = "") ∧
    (∀ s : String, pyLower (pyStrip s) = "nan" ∨ pyLower (pyStrip s) = "none" →
      safe_color_processing (Val.vStr s) = "") ∧
    (∀ s : String, pyStrip s ≠ "" → pyLower (pyStrip s) ≠ "nan" →
      pyLower (pyStrip s) ≠ "none" →
      safe_color_processing (Val.vStr s) = pyLower (pyStrip s)) := by
  refine ⟨?idem, rfl, rfl, ?blank, ?nanTok, ?value⟩
  case blank =>
    intro s hs
    rw [safe_color_processing_eq, if_neg (by simp [pdIsna]), if_pos (by simp [pyStr, hs])]
  case nanTok =>
    intro s hs
    rw [safe_color_processing_eq, if_neg (by simp [pdIsna])]
    rw [if_pos (by
      simp only [pyStr, Bool.or_eq_true, decide_eq_true_eq]
      rcases hs with h | h
      · exact Or.inl (Or.inr h)
      · exact Or.inr h)]
  case value =>
    intro s h1 h2 h3
    rw [safe_color_processing_eq, if_neg (by simp [pdIsna])]
    rw [if_neg (by
      simp only [pyStr, Bool.or_eq_true, decide_eq_true_eq]
      push_neg
      exact ⟨⟨h1, h2⟩, h3⟩)]
    rfl
  case idem =>
    intro v
    by_cases h0 : (decide (v = Val.vNone) || pdIsna v) = true
    · have hA : safe_color_processing v = "" := by rw [safe_color_processing_eq, if_pos h0]
      rw [hA]; exact safe_color_processing_empty
    · set t := pyStrip (pyStr v) with ht
      by_cases h1 : (decide (t = "") || decide (pyLower t = "nan") ||
          decide (pyLower t = "none")) = true
      · have hA : safe_color_processing v = "" := by
          rw [safe_color_processing_eq, if_neg h0, ← ht, if_pos h1]
        rw [hA]; exact safe_color_processing_empty
      · have hB : safe_color_processing v = pyLower t := by
          rw [safe_color_processing_eq, if_neg h0, ← ht, if_neg h1]
        simp only [Bool.or_eq_true, decide_eq_true_eq] at h1
        push_neg at h1
        have htt : pyStrip t = t := by rw [ht]; exact pyStrip_idem _
        have key : pyStrip (pyLower t) = pyLower t := by
          rw [pyStrip_pyLower_comm, htt]
        have goal2 : safe_color_processing (Val.vStr (pyLower t)) = pyLower t := by
          rw [safe_color_processing_eq, if_neg (by simp [pdIsna])]
          have hps : pyStr (Val.vStr (pyLower t)) = pyLower t := rfl
          rw [hps, key, pyLower_idem]
          rw [if_neg ?cond]
          case cond =>
            simp only [Bool.or_eq_true, decide_eq_true_eq]
            push_neg
            refine ⟨⟨?_, h1.1.2⟩, h1.2⟩
            intro he
            exact h1.1.1 ((pyLower_empty_iff t).mp he)
        rw [hB]; exact goal2

/-- Witness for C9 at concrete inputs: a padded mixed-case color normalizes
to its lower-cased trimmed form, and re-normalizing is the identity. -/
theorem normalize_color_total_and_idempotent_witness :
    safe_color_processing (Val.vStr "  ReD  ") = pyLower (pyStrip "  ReD  ") ∧
    safe_color_processing (Val.vStr (safe_color_processing (Val.vStr "  ReD  "))) =
      safe_color_processing (Val.vStr "  ReD  ") ∧
    safe_color_processing (Val.vStr " NaN ") = "" :=
  ⟨normalize_color_total_and_idempotent.2.2.2.2.2 "  ReD  " (by decide) (by decide)
      (by decide),
   normalize_color_total_and_idempotent.1 (Val.vStr "  ReD  "),
   normalize_color_total_and_idempotent.2.2.2.2.1 " NaN " (Or.inl (by decide))⟩

/-- C7 counterexample: the claim restricts bracket-code content to
`[A-Za-z0-9\\-]+`, but the source regex also accepts Cyrillic letters — on
`"Тест (цвет)"` the extractor returns `"ЦВЕТ"`, whose characters are not in
the claimed Latin-only class. -/
theorem bracket_code_latin_only_counterexample :
    find_product_code_in_brackets (Val.vStr "Тест (цвет)") = some "ЦВЕТ" ∧
      "ЦВЕТ".data.all latinBracketChar = false := by
  exact ⟨by decide, by decide⟩

/-- C7 (amended): the bracket-code extractor looks only at the first
parenthesized group; its stripped, upper-cased content is returned exactly
when it has at least 4 characters and consists only of Latin or Cyrillic
letters, digits and hyphens; in every other case (including no group at all)
the result is `None` — never the empty string. -/
theorem find_product_code_in_brackets_spec :
    (∀ s c, find_product_code_in_brackets (Val.vStr s) = some c →
      c ≠ "" ∧ 4 ≤ c.data.length ∧ c.data.all bracketCodeChar = true ∧
      ∃ g, firstBracketGroup s.data = some g ∧ c = pyUpper (pyStrip (String.mk g))) ∧
    (∀ s, firstBracketGroup s.data = none →
      find_product_code_in_brackets (Val.vStr s) = none) ∧
    (∀ s g, firstBracketGroup s.data = some g →
      ¬((pyUpper (pyStrip (String.mk g))).data.all bracketCodeChar = true ∧
        4 ≤ (pyUpper (pyStrip (String.mk g))).data.length) →
      find_product_code_in_brackets (Val.vStr s) = none) := by
  refine ⟨?pos, ?noGroup, ?badGroup⟩
  case pos =>
    intro s c h
    simp only [find_product_code_in_brackets] at h
    cases hg : firstBracketGroup s.data with
    | none => rw [hg] at h; exact absurd h (by simp)
    | some g =>
        rw [hg] at h
        simp only at h
        split at h
        · next hcond =>
            simp only [Option.some.injEq] at h
            subst h
            simp only [Bool.and_eq_true, decide_eq_true_eq] at hcond
            refine ⟨?_, hcond.2, hcond.1, g, rfl, rfl⟩
            intro he
            have : (pyUpper (pyStrip (String.mk g))).data = [] := by rw [he]
            rw [this] at hcond
            simp at hcond
        · exact absurd h (by simp)
  case noGroup =>
    intro s hg
    simp only [find_product_code_in_brackets]
    rw [hg]
  case badGroup =>
    intro s g hg hbad
    simp only [find_product_code_in_brackets]
    rw [hg]
    simp only
    rw [if_neg]
    intro hc
    simp only [Bool.and_eq_true, decide_eq_true_eq] at hc
    exact hbad ⟨hc.1, hc.2⟩

/-- Witness for C7 (amended) at a concrete input. -/
theorem find_product_code_in_brackets_spec_witness :
    find_product_code_in_brackets (Val.vStr "Power Bank (XM123)") = some "XM123" ∧
      "XM123" ≠ "" ∧ 4 ≤ "XM123".data.length ∧
      "XM123".data.all bracketCodeChar = true := by
  have h : find_product_code_in_brackets (Val.vStr "Power Bank (XM123)") =
      some "XM123" := by decide
  have hc := find_product_code_in_brackets_spec.1 "Power Bank (XM123)" "XM123" h
  exact ⟨h, hc.1, hc.2.1, hc.2.2.1⟩

/-- Inversion for `listFirstSome`. -/
theorem listFirstSome_some {α β : Type} (l : List α) (f : α → Option β) (y : β)
    (h : listFirstSome l f = some y) : ∃ x ∈ l, f x = some y := by
  induction l with
  | nil => simp [listFirstSome] at h
  | cons a as ih =>
    rw [listFirstSome] at h
    cases hf : f a with
    | some z =>
        rw [hf] at h
        simp only [Option.some.injEq] at h
        exact ⟨a, by simp, by rw [hf, h]⟩
    | none =>
        rw [hf] at h
        obtain ⟨x, hx, hfx⟩ := ih h
        exact ⟨x, by simp [hx], hfx⟩

/-- A successful pattern attempt yields a non-empty digit run. -/
theorem matchCapAt_digits (ws : Bool) (suf l d : List Char)
    (h : matchCapAt ws suf l = some d) :
    d ≠ [] ∧ d.all isAsciiDigit = true := by
  have hd : d = l.takeWhile isAsciiDigit ∧
      (l.takeWhile isAsciiDigit).isEmpty = false := by
    by_cases he : (l.takeWhile isAsciiDigit).isEmpty
    · rw [matchCapAt] at h
      simp only [he, if_true] at h
      exact absurd h (by simp)
    · rw [matchCapAt] at h
      simp only [Bool.not_eq_true] at he
      simp only [he] at h
      simp only [Bool.false_eq_true, if_false] at h
      split at h <;>
      · split at h
        · simp only [Option.some.injEq] at h
          exact ⟨h.symm, he⟩
        · exact absurd h (by simp)
  obtain ⟨hd1, hd2⟩ := hd
  subst hd1
  refine ⟨by simpa [List.isEmpty_iff] using hd2, ?_⟩
  exact List.all_eq_true.mpr (fun x hx => List.mem_takeWhile_imp hx)

theorem searchCapPattern_digits (ws : Bool) (suf : List Char) :
    ∀ (l d : List Char), searchCapPattern ws suf l = some d →
      d ≠ [] ∧ d.all isAsciiDigit = true := by
  intro l
  induction l with
  | nil => intro d h; simp [searchCapPattern] at h
  | cons a rest ih =>
    intro d h
    rw [searchCapPattern] at h
    cases hm : matchCapAt ws suf (a :: rest) with
    | some d0 =>
        rw [hm] at h
        simp only [Option.some.injEq] at h
        subst h
        exact matchCapAt_digits ws suf _ d0 hm
    | none =>
        rw [hm] at h
        exact ih d h

/-- C8: the battery-capacity extractor only ever returns a non-empty digit
string whose integer value lies in `[5, 999999]`; in particular, extraction
from the name `"...60000mah 100w (C60)"` returns `"60000"`, unaffected by the
`100w` wattage token and the bracket code. -/
theorem find_battery_capacity_range_and_example :
    (∀ s ds, find_battery_capacity (Val.vStr s) = some ds →
      ds ≠ "" ∧ ds.data.all isAsciiDigit = true ∧
      5 ≤ digitsToNat ds ∧ digitsToNat ds ≤ 999999) ∧
    find_battery_capacity
        (Val.vStr "Повербанк GREENOE Protable Power bank 60000mah 100w (C60)") =
      some "60000" := by
  constructor
  · intro s ds h
    simp only [find_battery_capacity] at h
    obtain ⟨p, _, hp⟩ := listFirstSome_some _ _ _ h
    cases hs : searchCapPattern p.1 p.2 (pyLower s).data with
    | none => rw [hs] at hp; exact absurd hp (by simp)
    | some d0 =>
        rw [hs] at hp
        simp only at hp
        split at hp
        · next hrange =>
            simp only [Option.some.injEq] at hp
            subst hp
            obtain ⟨hne, hdig⟩ := searchCapPattern_digits _ _ _ _ hs
            simp only [Bool.and_eq_true, decide_eq_true_eq] at hrange
            refine ⟨?_, hdig, hrange.1, hrange.2⟩
            intro he
            exact hne (by
              have := congrArg String.data he
              simpa using this)
        · exact absurd hp (by simp)
  · decide

/-- Witness for C8: the range facts instantiated through the concrete
extraction. -/
theorem find_battery_capacity_range_witness :
    "60000" ≠ "" ∧ "60000".data.all isAsciiDigit = true ∧
      5 ≤ digitsToNat "60000" ∧ digitsToNat "60000" ≤ 999999 :=
  find_battery_capacity_range_and_example.1
    "Повербанк GREENOE Protable Power bank 60000mah 100w (C60)" "60000"
    find_battery_capacity_range_and_example.2

/-- C3: `find_product_code_unified` applies a strict priority order — bracket
code, then brand token, then the generic code of at least 4 characters —
returning the first tier that succeeds, or `None`. -/
theorem find_product_code_unified_priority :
    (∀ s c, find_product_code_in_brackets (Val.vStr s) = some c →
      find_product_code_unified (Val.vStr s) = some c) ∧
    (∀ s b, find_product_code_in_brackets (Val.vStr s) = none →
      find_brand_in_name (pyUpper s) = some b →
      find_product_code_unified (Val.vStr s) = some b) ∧
    (∀ s, find_product_code_in_brackets (Val.vStr s) = none →
      find_brand_in_name (pyUpper s) = none →
      find_product_code_unified (Val.vStr s) =
        match find_product_code_in_name (Val.vStr s) with
        | some c => if 4 ≤ c.length then some c else none
        | none => none) := by
  refine ⟨?br, ?brand, ?generic⟩
  case br =>
    intro s c h
    simp only [find_product_code_unified]
    rw [h]
  case brand =>
    intro s b h1 h2
    simp only [find_product_code_unified]
    rw [h1, h2]
  case generic =>
    intro s h1 h2
    simp only [find_product_code_unified]
    rw [h1, h2]

/-- Witness for C3: a name containing both a qualifying bracketed code and a
brand token yields the bracketed code. -/
theorem find_product_code_unified_priority_witness :
    find_brand_in_name (pyUpper "XIAOMI Power Bank (XM123)") = some "XIAOMI" ∧
      find_product_code_unified (Val.vStr "XIAOMI Power Bank (XM123)") =
        some "XM123" :=
  ⟨by decide,
   find_product_code_unified_priority.1 "XIAOMI Power Bank (XM123)" "XM123" (by decide)⟩

theorem find_some_split {α : Type} (p : α → Bool) (l : List α) (a : α)
    (h : l.find? p = some a) :
    p a = true ∧ ∃ pre post, l = pre ++ a :: post ∧ ∀ x ∈ pre, p x = false := by
  induction l with
  | nil => simp at h
  | cons y ys ih =>
      rw [List.find?_cons] at h
      cases hy : p y with
      | true =>
          rw [hy] at h
          simp only [Option.some.injEq] at h
          subst h
          exact ⟨hy, [], ys, rfl, by intro x hx; cases hx⟩
      | false =>
          rw [hy] at h
          obtain ⟨hpa, pre, post, heq, hpre⟩ := ih h
          refine ⟨hpa, y :: pre, post, by rw [heq]; rfl, ?_⟩
          intro x hx
          rcases List.mem_cons.mp hx with h1 | h1
          · rw [h1]; exact hy
          · exact hpre x h1

theorem variantRank_le_three (sc scap : Val) (x : Row) :
    variantRank sc scap x ≤ 3 := by
  unfold variantRank
  split <;> split <;> omega

/-- C2: on a non-empty variant group the color/capacity disambiguator always
returns a candidate; the returned candidate belongs to the group, the returned
`color_match`/`capacity_match` flags are exactly the candidate's color and
capacity agreement with the supplier, the candidate maximizes the tier rank
(both = 3 > color-only = 2 > capacity-only = 1 > neither = 0), and every
candidate placed before it in the group has strictly smaller rank — i.e. the
first candidate of the highest applicable tier is chosen, with the plain head
of the group as the rank-0 fallback. -/
theorem pick_best_variant_spec (sc scap : Val) (l : List Row) :
    (pick_best_variant sc scap l).isSome = !l.isEmpty ∧
    ∀ bv cm km, pick_best_variant sc scap l = some (bv, cm, km) →
      bv ∈ l ∧
      cm = pyEq sc (rowGet bv "color" Val.vNone) ∧
      km = pyEq scap (rowGet bv "capacity" Val.vNone) ∧
      (∀ x ∈ l, variantRank sc scap x ≤ variantRank sc scap bv) ∧
      ∃ pre post, l = pre ++ bv :: post ∧
        ∀ x ∈ pre, variantRank sc scap x < variantRank sc scap bv := by
  constructor
  · cases l with
    | nil => rfl
    | cons y ys =>
        rw [pick_best_variant.eq_def]
        split
        · rfl
        · split
          · rfl
          · split
            · rfl
            · rfl
  · intro bv cm km h
    rw [pick_best_variant.eq_def] at h
    split at h
    next bv1 heq1 =>
      simp only [Option.some.injEq, Prod.mk.injEq] at h
      obtain ⟨hbv, hcm, hkm⟩ := h
      subst hbv; subst hcm; subst hkm
      obtain ⟨hp, pre, post, hl, hpre⟩ := find_some_split _ _ _ heq1
      rw [Bool.and_eq_true] at hp
      obtain ⟨hc, hk⟩ := hp
      refine ⟨?_, hc.symm, hk.symm, ?_, pre, post, hl, ?_⟩
      · rw [hl]; exact List.mem_append_right _ (List.mem_cons_self _ _)
      · intro x hx
        have h3 := variantRank_le_three sc scap x
        have hr : variantRank sc scap bv1 = 3 := by simp [variantRank, hc, hk]
        omega
      · intro x hx
        have hfx := hpre x hx
        have hr : variantRank sc scap bv1 = 3 := by simp [variantRank, hc, hk]
        rw [hr]
        cases hcx : pyEq sc (rowGet x "color" Val.vNone) <;>
          cases hkx : pyEq scap (rowGet x "capacity" Val.vNone) <;>
            simp [variantRank, hcx, hkx] at hfx ⊢
    next heq1 =>
      split at h
      next bv2 heq2 =>
        simp only [Option.some.injEq, Prod.mk.injEq] at h
        obtain ⟨hbv, hcm, hkm⟩ := h
        subst hbv; subst hcm; subst hkm
        rw [List.find?_eq_none] at heq1
        obtain ⟨hc, pre, post, hl, hpre⟩ := find_some_split _ _ _ heq2
        have hmem : bv2 ∈ l := by
          rw [hl]; exact List.mem_append_right _ (List.mem_cons_self _ _)
        have hk : pyEq scap (rowGet bv2 "capacity" Val.vNone) = false := by
          cases hkx : pyEq scap (rowGet bv2 "capacity" Val.vNone)
          · rfl
          · exact absurd (by simp [hc, hkx]) (heq1 bv2 hmem)
        have hr : variantRank sc scap bv2 = 2 := by simp [variantRank, hc, hk]
        refine ⟨hmem, hc.symm, hk.symm, ?_, pre, post, hl, ?_⟩
        · intro x hx
          have hfx := heq1 x hx
          rw [hr]
          cases hcx : pyEq sc (rowGet x "color" Val.vNone) <;>
            cases hkx : pyEq scap (rowGet x "capacity" Val.vNone) <;>
              simp [variantRank, hcx, hkx] at hfx ⊢
        · intro x hx
          have hfx := hpre x hx
          rw [hr]
          cases hkx : pyEq scap (rowGet x "capacity" Val.vNone) <;>
            simp [variantRank, hfx, hkx]
      next heq2 =>
        split at h
        next bv3 heq3 =>
          simp only [Option.some.injEq, Prod.mk.injEq] at h
          obtain ⟨hbv, hcm, hkm⟩ := h
          subst hbv; subst hcm; subst hkm
          rw [List.find?_eq_none] at heq2
          obtain ⟨hk, pre, post, hl, hpre⟩ := find_some_split _ _ _ heq3
          have hmem : bv3 ∈ l := by
            rw [hl]; exact List.mem_append_right _ (List.mem_cons_self _ _)
          have hc : pyEq sc (rowGet bv3 "color" Val.vNone) = false := by
            cases hcx : pyEq sc (rowGet bv3 "color" Val.vNone)
            · rfl
            · exact absurd hcx (heq2 bv3 hmem)
          have hr : variantRank sc scap bv3 = 1 := by simp [variantRank, hc, hk]
          refine ⟨hmem, hc.symm, hk.symm, ?_, pre, post, hl, ?_⟩
          · intro x hx
            have hfx : pyEq sc (rowGet x "color" Val.vNone) = false := by
              cases hcc : pyEq sc (rowGet x "color" Val.vNone)
              · rfl
              · exact absurd hcc (heq2 x hx)
            rw [hr]
            cases hkx : pyEq scap (rowGet x "capacity" Val.vNone) <;>
              simp [variantRank, hfx, hkx]
          · intro x hx
            have hfx := hpre x hx
            have hcx : pyEq sc (rowGet x "color" Val.vNone) = false := by
              cases hcc : pyEq sc (rowGet x "color" Val.vNone)
              · rfl
              · exact absurd hcc (heq2 x (by rw [hl]; exact List.mem_append_left _ hx))
            rw [hr]
            simp [variantRank, hfx, hcx]
        next heq3 =>
          split at h
          next bv4 rest =>
            rw [List.find?_eq_none] at heq2 heq3
            simp only [Option.some.injEq, Prod.mk.injEq] at h
            obtain ⟨hbv, hcm, hkm⟩ := h
            subst hbv; subst hcm; subst hkm
            have hc : pyEq sc (rowGet bv4 "color" Val.vNone) = false := by
              cases hcc : pyEq sc (rowGet bv4 "color" Val.vNone)
              · rfl
              · exact absurd hcc (heq2 bv4 (List.mem_cons_self _ _))
            have hk : pyEq scap (rowGet bv4 "capacity" Val.vNone) = false := by
              cases hkk : pyEq scap (rowGet bv4 "capacity" Val.vNone)
              · rfl
              · exact absurd hkk (heq3 bv4 (List.mem_cons_self _ _))
            have hr : variantRank sc scap bv4 = 0 := by simp [variantRank, hc, hk]
            refine ⟨List.mem_cons_self _ _, hc.symm, hk.symm, ?_, [], rest, rfl, ?_⟩
            · intro x hx
              have hcx : pyEq sc (rowGet x "color" Val.vNone) = false := by
                cases hcc : pyEq sc (rowGet x "color" Val.vNone)
                · rfl
                · exact absurd hcc (heq2 x hx)
              have hkx : pyEq scap (rowGet x "capacity" Val.vNone) = false := by
                cases hkk : pyEq scap (rowGet x "capacity" Val.vNone)
                · rfl
                · exact absurd hkk (heq3 x hx)
              rw [hr]
              simp [variantRank, hcx, hkx]
            · intro x hx
              cases hx
          next => exact absurd h (by simp)

/-- Witness for C2: on a two-element group where only the second variant's
color agrees with the supplier, the disambiguator returns the second variant
with flags (true, false), the maximal-rank first-hit characterization holding
concretely. -/
theorem pick_best_variant_spec_witness :
    pick_best_variant (Val.vStr "black") (Val.vStr "9999") [bvRed, bvBlack] =
        some (bvBlack, true, false) ∧
      (bvBlack ∈ [bvRed, bvBlack] ∧
        true = pyEq (Val.vStr "black") (rowGet bvBlack "color" Val.vNone) ∧
        false = pyEq (Val.vStr "9999") (rowGet bvBlack "capacity" Val.vNone) ∧
        (∀ x ∈ [bvRed, bvBlack],
          variantRank (Val.vStr "black") (Val.vStr "9999") x ≤
            variantRank (Val.vStr "black") (Val.vStr "9999") bvBlack) ∧
        ∃ pre post, [bvRed, bvBlack] = pre ++ bvBlack :: post ∧
          ∀ x ∈ pre,
            variantRank (Val.vStr "black") (Val.vStr "9999") x <
              variantRank (Val.vStr "black") (Val.vStr "9999") bvBlack) := by
  have h : pick_best_variant (Val.vStr "black") (Val.vStr "9999") [bvRed, bvBlack] =
      some (bvBlack, true, false) := by decide
  exact ⟨h, (pick_best_variant_spec (Val.vStr "black") (Val.vStr "9999")
    [bvRed, bvBlack]).2 bvBlack true false h⟩

theorem bestFuzzyStep_fold_char (cname : String) :
    ∀ (l : List Row) (acc : Option Row × ℚ),
      (acc = (none, 0) ∨
        ∃ b, acc = (some b, fuzzyRatio cname b) ∧ TRSH ≤ fuzzyRatio cname b) →
      (l.foldl (bestFuzzyStep cname) acc = acc ∧ acc = (none, 0) ∧
        ∀ item ∈ l, fuzzyRatio cname item < TRSH) ∨
      (∃ c, l.foldl (bestFuzzyStep cname) acc = (some c, fuzzyRatio cname c) ∧
        TRSH ≤ fuzzyRatio cname c ∧
        (c ∈ l ∨ acc = (some c, fuzzyRatio cname c)) ∧
        acc.2 ≤ fuzzyRatio cname c ∧
        ∀ item ∈ l, fuzzyRatio cname item ≤ fuzzyRatio cname c) := by
  intro l
  induction l with
  | nil =>
      intro acc hacc
      rcases hacc with h | ⟨b, hb, hTb⟩
      · exact Or.inl ⟨rfl, h, by intro x hx; cases hx⟩
      · refine Or.inr ⟨b, ?_, hTb, Or.inr hb, ?_, ?_⟩
        · simpa [List.foldl] using hb
        · rw [hb]
        · intro x hx; cases hx
  | cons y ys ih =>
      intro acc hacc
      rw [List.foldl_cons]
      by_cases hcond : TRSH ≤ fuzzyRatio cname y ∧ acc.2 < fuzzyRatio cname y
      · have hstep : bestFuzzyStep cname acc y = (some y, fuzzyRatio cname y) := by
          unfold bestFuzzyStep
          split
          next => rfl
          next hb =>
              exact absurd (by
                rw [Bool.and_eq_true, decide_eq_true_eq, decide_eq_true_eq]
                exact hcond) hb
        rw [hstep]
        have ih2 := ih (some y, fuzzyRatio cname y) (Or.inr ⟨y, rfl, hcond.1⟩)
        rcases ih2 with ⟨_, habs, _⟩ | ⟨c, hR, hT, hmem, hacc2, hall⟩
        · exact absurd habs (by simp)
        · have hyc : fuzzyRatio cname y ≤ fuzzyRatio cname c := hacc2
          refine Or.inr ⟨c, hR, hT, ?_, ?_, ?_⟩
          · rcases hmem with hm | hm
            · exact Or.inl (List.mem_cons_of_mem _ hm)
            · have hyc2 : y = c := by
                have := congrArg Prod.fst hm
                simpa using this
              exact Or.inl (by rw [← hyc2]; exact List.mem_cons_self _ _)
          · exact le_trans (le_of_lt hcond.2) hyc
          · intro x hx
            rcases List.mem_cons.mp hx with h1 | h1
            · rw [h1]; exact hyc
            · exact hall x h1
      · have hstep : bestFuzzyStep cname acc y = acc := by
          unfold bestFuzzyStep
          split
          next hb =>
              rw [Bool.and_eq_true, decide_eq_true_eq, decide_eq_true_eq] at hb
              exact absurd hb hcond
          next => rfl
        rw [hstep]
        have ih2 := ih acc hacc
        rcases ih2 with ⟨hR, haccz, hall⟩ | ⟨c, hR, hT, hmem, hacc2, hall⟩
        · refine Or.inl ⟨hR, haccz, ?_⟩
          intro x hx
          rcases List.mem_cons.mp hx with h1 | h1
          · rw [h1]
            by_cases h2 : TRSH ≤ fuzzyRatio cname y
            · exfalso
              apply hcond
              refine ⟨h2, ?_⟩
              rw [haccz]
              have h0 : (0 : ℚ) < TRSH := by norm_num [TRSH]
              exact lt_of_lt_of_le h0 h2
            · exact not_le.mp h2
          · exact hall x h1
        · refine Or.inr ⟨c, hR, hT, ?_, hacc2, ?_⟩
          · rcases hmem with hm | hm
            · exact Or.inl (List.mem_cons_of_mem _ hm)
            · exact Or.inr hm
          · intro x hx
            rcases List.mem_cons.mp hx with h1 | h1
            · rw [h1]
              by_cases h2 : TRSH ≤ fuzzyRatio cname y
              · by_cases h3 : acc.2 < fuzzyRatio cname y
                · exact absurd ⟨h2, h3⟩ hcond
                · exact le_trans (not_lt.mp h3) hacc2
              · exact le_trans (le_of_lt (not_le.mp h2)) hT
            · exact hall x h1

/-- C5: the stage-4 inner loop treats `TRSH` as an inclusive lower bound — if
every base name scores strictly below `TRSH` against the candidate the loop
returns no match, while any base name scoring at least `TRSH` (in particular
exactly `TRSH`) guarantees a returned match whose ratio is the maximum
similarity over the base list, attained by a member of the list and itself at
least `TRSH`. -/
theorem best_fuzzy_threshold (cname : String) (base_names : List Row) :
    ((∀ item ∈ base_names, fuzzyRatio cname item < TRSH) →
      best_fuzzy_for cname base_names = (none, 0)) ∧
    ∀ item ∈ base_names, TRSH ≤ fuzzyRatio cname item →
      ∃ c, best_fuzzy_for cname base_names = (some c, fuzzyRatio cname c) ∧
        c ∈ base_names ∧ TRSH ≤ fuzzyRatio cname c ∧
        ∀ it ∈ base_names, fuzzyRatio cname it ≤ fuzzyRatio cname c := by
  have hchar := bestFuzzyStep_fold_char cname base_names (none, 0) (Or.inl rfl)
  constructor
  · intro hall
    rcases hchar with ⟨hR, _, _⟩ | ⟨c, hR, hT, hmem, _, _⟩
    · exact hR
    · exfalso
      rcases hmem with hm | hm
      · exact absurd hT (not_le.mpr (hall c hm))
      · simp at hm
  · intro item hitem hTitem
    rcases hchar with ⟨_, _, hall⟩ | ⟨c, hR, hT, hmem, _, hallle⟩
    · exact absurd hTitem (not_le.mpr (hall item hitem))
    · refine ⟨c, hR, ?_, hT, hallle⟩
      rcases hmem with hm | hm
      · exact hm
      · exact absurd hm (by simp)

/-- Witness for C5: `fuzzyB` scores exactly `TRSH = 33/100` against `fuzzyA`,
and the loop on the singleton base list accepts it. -/
theorem best_fuzzy_threshold_witness :
    fuzzyRatio fuzzyA fuzzyItemB = TRSH ∧
    ∃ c, best_fuzzy_for fuzzyA [fuzzyItemB] = (some c, fuzzyRatio fuzzyA c) ∧
      c ∈ [fuzzyItemB] ∧ TRSH ≤ fuzzyRatio fuzzyA c ∧
      ∀ it ∈ [fuzzyItemB], fuzzyRatio fuzzyA it ≤ fuzzyRatio fuzzyA c := by
  have h1 : pyLower fuzzyA = fuzzyA := by decide
  have h2 : pyStr (rowGet fuzzyItemB "name" (Val.vStr "")) = fuzzyB := by decide
  have h3 : pyLower fuzzyB = fuzzyB := by decide
  have heq : fuzzyRatio fuzzyA fuzzyItemB = TRSH := by
    rw [fuzzyRatio, h2, h1, h3]
    have hmt : matchTotal fuzzyA.data fuzzyB.data = 33 := by decide
    have hla : fuzzyA.data.length = 33 := by decide
    have hlb : fuzzyB.data.length = 167 := by decide
    rw [sequenceRatio, hmt, hla, hlb]
    norm_num [TRSH]
  exact ⟨heq, (best_fuzzy_threshold fuzzyA [fuzzyItemB]).2 fuzzyItemB
    (List.mem_singleton.mpr rfl) (le_of_eq heq.symm)⟩

/-- C4: in every match-record constructor that carries a
`price_change_percent` field (article, bracket-code and product-code
matches), a non-positive base price yields the exact integer `0` — a defined
value, never NaN — while a positive base price `b` together with a non-NaN
supplier price `s` yields exactly `(s - b) / b * 100`; stage-4 fuzzy records
carry no `price_change_percent` field at all. -/
theorem price_change_percent_contract :
    (∀ a sdata bdata,
      ((valNum? (rowGet bdata "price" Val.vNaN)).getD 0 ≤ 0 →
        rowGet (article_match_info a sdata bdata) "price_change_percent" Val.vNaN
          = Val.vInt 0) ∧
      ∀ s, 0 < (valNum? (rowGet bdata "price" Val.vNaN)).getD 0 →
        valToFNum (rowGet sdata "price" Val.vNaN) = some s →
        rowGet (article_match_info a sdata bdata) "price_change_percent" Val.vNaN
          = Val.vRat ((s - (valNum? (rowGet bdata "price" Val.vNaN)).getD 0) /
              (valNum? (rowGet bdata "price" Val.vNaN)).getD 0 * 100)) ∧
    (∀ cfg code sv pick,
      (get_base_price_from_config cfg (Prod.fst pick) ≤ 0 →
        rowGet (bracket_match_info cfg code sv pick) "price_change_percent" Val.vNaN
          = Val.vInt 0) ∧
      ∀ s, 0 < get_base_price_from_config cfg (Prod.fst pick) →
        valToFNum (rowGet sv "price" Val.vNaN) = some s →
        rowGet (bracket_match_info cfg code sv pick) "price_change_percent" Val.vNaN
          = Val.vRat ((s - get_base_price_from_config cfg (Prod.fst pick)) /
              get_base_price_from_config cfg (Prod.fst pick) * 100)) ∧
    (∀ cfg code sv pick,
      (get_base_price_from_config cfg (Prod.fst pick) ≤ 0 →
        rowGet (code_match_info cfg code sv pick) "price_change_percent" Val.vNaN
          = Val.vInt 0) ∧
      ∀ s, 0 < get_base_price_from_config cfg (Prod.fst pick) →
        valToFNum (rowGet sv "price" Val.vNaN) = some s →
        rowGet (code_match_info cfg code sv pick) "price_change_percent" Val.vNaN
          = Val.vRat ((s - get_base_price_from_config cfg (Prod.fst pick)) /
              get_base_price_from_config cfg (Prod.fst pick) * 100)) ∧
    (∀ candidate cname best r,
      rowHas (fuzzy_match_info candidate cname best r) "price_change_percent"
        = false) := by
  refine ⟨?_, ?_, ?_, ?_⟩
  · intro a sdata bdata
    have hred : rowGet (article_match_info a sdata bdata) "price_change_percent" Val.vNaN
        = (if 0 < (valNum? (rowGet bdata "price" Val.vNaN)).getD 0
           then fnumVal (percentFormula (valToFNum (rowGet sdata "price" Val.vNaN))
             ((valNum? (rowGet bdata "price" Val.vNaN)).getD 0))
           else Val.vInt 0) := rfl
    constructor
    · intro h
      rw [hred, if_neg (not_lt.mpr h)]
    · intro s h hs
      rw [hred, if_pos h]
      simp [percentFormula, fnumSub, hs, fnumVal]
  · intro cfg code sv pick
    have hred : rowGet (bracket_match_info cfg code sv pick) "price_change_percent" Val.vNaN
        = (if 0 < get_base_price_from_config cfg (Prod.fst pick)
           then fnumVal (percentFormula (valToFNum (rowGet sv "price" Val.vNaN))
             (get_base_price_from_config cfg (Prod.fst pick)))
           else Val.vInt 0) := rfl
    constructor
    · intro h
      rw [hred, if_neg (not_lt.mpr h)]
    · intro s h hs
      rw [hred, if_pos h]
      simp [percentFormula, fnumSub, hs, fnumVal]
  · intro cfg code sv pick
    have hred : rowGet (code_match_info cfg code sv pick) "price_change_percent" Val.vNaN
        = (if 0 < get_base_price_from_config cfg (Prod.fst pick)
           then fnumVal (percentFormula (valToFNum (rowGet sv "price" Val.vNaN))
             (get_base_price_from_config cfg (Prod.fst pick)))
           else Val.vInt 0) := rfl
    constructor
    · intro h
      rw [hred, if_neg (not_lt.mpr h)]
    · intro s h hs
      rw [hred, if_pos h]
      simp [percentFormula, fnumSub, hs, fnumVal]
  · intro candidate cname best r
    rfl

/-- Witness for C4: with configured base price 8 and supplier price 10 the
bracket-code record's percent field is exactly `(10 - 8) / 8 * 100 = 25`. -/
theorem price_change_percent_contract_witness :
    (0 : ℚ) < get_base_price_from_config "vitya" (Prod.fst (c4bm, true, true)) ∧
    valToFNum (rowGet c4sv "price" Val.vNaN) = some 10 ∧
    rowGet (bracket_match_info "vitya" "XM123" c4sv (c4bm, true, true))
        "price_change_percent" Val.vNaN =
      Val.vRat ((10 - get_base_price_from_config "vitya" (Prod.fst (c4bm, true, true))) /
        get_base_price_from_config "vitya" (Prod.fst (c4bm, true, true)) * 100) := by
  have h1 : (0 : ℚ) < get_base_price_from_config "vitya" (Prod.fst (c4bm, true, true)) := by
    decide
  have h2 : valToFNum (rowGet c4sv "price" Val.vNaN) = some 10 := by decide
  exact ⟨h1, h2,
    (price_change_percent_contract.2.1 "vitya" "XM123" c4sv (c4bm, true, true)).2 10 h1 h2⟩

theorem except_bind_ok {α β : Type} (e : Except String α) (g : α → Except String β)
    (b : β) (h : e >>= g = Except.ok b) :
    ∃ a, e = Except.ok a ∧ g a = Except.ok b := by
  cases e with
  | error msg =>
      have h' : (Except.error msg : Except String β) = Except.ok b := h
      exact Except.noConfusion h'
  | ok a => exact ⟨a, rfl, h⟩

theorem except_ok_inj {α : Type} {a b : α}
    (h : (Except.ok a : Except String α) = Except.ok b) : a = b := by
  injection h

theorem mapM_except_mem {α β : Type} (f : α → Except String β) :
    ∀ (l : List α) (out : List β), l.mapM f = Except.ok out →
      ∀ b ∈ out, ∃ a ∈ l, f a = Except.ok b := by
  intro l
  induction l with
  | nil =>
      intro out h b hb
      have h2 : ([] : List β) = out := except_ok_inj h
      rw [← h2] at hb
      cases hb
  | cons x xs ih =>
      intro out h b hb
      rw [List.mapM_cons] at h
      obtain ⟨y, hy, h⟩ := except_bind_ok _ _ _ h
      obtain ⟨ys, hys, h⟩ := except_bind_ok _ _ _ h
      have hout : y :: ys = out := except_ok_inj h
      rw [← hout] at hb
      rcases List.mem_cons.mp hb with h1 | h1
      · exact ⟨x, List.mem_cons_self _ _, by rw [h1]; exact hy⟩
      · obtain ⟨a, ha, hfa⟩ := ih ys hys b h1
        exact ⟨a, List.mem_cons_of_mem _ ha, hfa⟩

theorem rowFind_append (a b : Row) (k : String) :
    rowFind (a ++ b) k =
      match rowFind a k with
      | some v => some v
      | none => rowFind b k := by
  induction a with
  | nil => rfl
  | cons p rest ih =>
      obtain ⟨k', v⟩ := p
      by_cases hk : k' = k
      · simp [rowFind, hk]
      · simp [rowFind, hk, ih]

theorem unmatched_row_no_price_usd (r : Row) (h : rowFind r "price_usd" = none) :
    rowFind (unmatched_row r) "price_usd" = none := by
  unfold unmatched_row
  rw [rowFind_append, h]
  rfl

theorem new_item_record_no_price_usd (cfg : String) (base_df : DFrame)
    (article : String) (sdata : Row) (r : Row)
    (h : new_item_record cfg base_df article sdata = Except.ok r) :
    rowFind r "price_usd" = none := by
  unfold new_item_record at h
  obtain ⟨fm, hfm, h2⟩ := except_bind_ok _ _ _ h
  have h3 := except_ok_inj h2
  rw [← h3]
  rfl

theorem new_items_no_price_usd (cfg : String) (base_df : DFrame)
    (sd bd : List (String × Row)) (ni : List Row)
    (h : compare_by_articles_new_items cfg base_df sd bd = Except.ok ni) :
    ∀ r ∈ ni, rowFind r "price_usd" = none := by
  unfold compare_by_articles_new_items at h
  obtain ⟨opts, hm, hp⟩ := except_bind_ok _ _ _ h
  have hni : opts.filterMap id = ni := except_ok_inj hp
  intro r hr
  rw [← hni] at hr
  rw [List.mem_filterMap] at hr
  obtain ⟨o, ho, hor⟩ := hr
  have hosome : o = some r := hor
  rw [hosome] at ho
  obtain ⟨p, hp2, hf⟩ := mapM_except_mem _ sd opts hm (some r) ho
  cases hd : dictFind bd p.1 with
  | some w =>
      rw [hd] at hf
      have : (none : Option Row) = some r :=
        except_ok_inj (α := Option Row) hf
      exact Option.noConfusion this
  | none =>
      rw [hd] at hf
      cases hnir : new_item_record cfg base_df p.1 p.2 with
      | error e =>
          rw [hnir] at hf
          have h' : (Except.error e : Except String (Option Row)) = Except.ok (some r) := hf
          exact Except.noConfusion h'
      | ok rr =>
          rw [hnir] at hf
          have h' : rr = r := by
            have h'' : some rr = some r :=
              except_ok_inj (α := Option Row) hf
            injection h''
          rw [← h']
          exact new_item_record_no_price_usd cfg base_df p.1 p.2 rr hnir

theorem compare_by_articles_new_no_price_usd (cfg : String) (s b : DFrame)
    (ar : ArticleResults) (h : compare_by_articles cfg s b = Except.ok ar) :
    ∀ r ∈ ar.new_items, rowFind r "price_usd" = none := by
  unfold compare_by_articles at h
  obtain ⟨sc, h1, h⟩ := except_bind_ok _ _ _ h
  obtain ⟨bc, h2, h⟩ := except_bind_ok _ _ _ h
  obtain ⟨sd, h3, h⟩ := except_bind_ok _ _ _ h
  obtain ⟨ni, h4, h⟩ := except_bind_ok _ _ _ h
  have h5 := except_ok_inj h
  intro r hr
  rw [← h5] at hr
  dsimp only at hr
  exact new_items_no_price_usd cfg b sd (build_base_dict cfg bc) ni h4 r hr

theorem mem_enumFrom_snd {α : Type} : ∀ (l : List α) (n : Nat) (p : Nat × α),
    p ∈ List.enumFrom n l → p.2 ∈ l := by
  intro l
  induction l with
  | nil => intro n p h; cases h
  | cons x xs ih =>
      intro n p h
      rcases List.mem_cons.mp h with h1 | h1
      · rw [h1]; exact List.mem_cons_self _ _
      · exact List.mem_cons_of_mem _ (ih (n + 1) p h1)

theorem mem_ite_pool {α : Type} {p : α} {c : Prop} [Decidable c]
    {l : List α} {f : α → Bool} (h : p ∈ if c then l else l.filter f) :
    p ∈ l := by
  split at h
  · exact h
  · exact (List.mem_filter.mp h).1

theorem compare_by_fuzzy_mem (cfg : String) (cands : List Row) (base_df : DFrame)
    (m : Row) (hm : m ∈ compare_by_fuzzy_string_matching cfg cands base_df) :
    ∃ c ∈ cands, ∃ cn best br, m = fuzzy_match_info c cn best br := by
  unfold compare_by_fuzzy_string_matching at hm
  split at hm
  · cases hm
  · split at hm
    · cases hm
    · split at hm
      next => cases hm
      next col hcol =>
          rw [List.mem_filterMap] at hm
          obtain ⟨c, hc, hfc⟩ := hm
          refine ⟨c, hc, ?_⟩
          split at hfc
          next => exact Option.noConfusion hfc
          next ncol hncol =>
              split at hfc
              · exact Option.noConfusion hfc
              · have hfc2 : (match best_fuzzy_for
                      (pyStrip (pyStr (rowGet c ncol Val.vNaN)))
                      (fuzzy_base_names base_df col) with
                    | (some best, best_ratio) =>
                        some (fuzzy_match_info c
                          (pyStrip (pyStr (rowGet c ncol Val.vNaN))) best best_ratio)
                    | (none, _) => none) = some m := hfc
                split at hfc2
                next best br heq =>
                    rw [Option.some.injEq] at hfc2
                    exact ⟨_, best, br, hfc2.symm⟩
                next => exact Option.noConfusion hfc2

/-- C10: every fuzzy-name match emitted by a successful full pipeline run
reports `supplier_price = 0`: the stage-4 record constructor reads the
candidate's `price_usd` key with default `0`, but the unmatched-pool records
built in stage 1 store the supplier's price under the key `price`, so the
lookup always falls back to the default. -/
theorem pipeline_fuzzy_supplier_price_zero (cfg : String)
    (supplier_df base_df : DFrame) (res : ComparisonResult)
    (h : perform_comparison cfg supplier_df base_df = Except.ok res) :
    ∀ m ∈ res.fuzzy_matches, rowGet m "supplier_price" Val.vNaN = Val.vInt 0 := by
  unfold perform_comparison at h
  obtain ⟨ar, har, h⟩ := except_bind_ok _ _ _ h
  have h5 := except_ok_inj h
  intro m hm
  rw [← h5] at hm
  have hm2 : m ∈ pipeline_fuzzy_matches cfg supplier_df base_df ar.new_items := hm
  unfold pipeline_fuzzy_matches at hm2
  split at hm2
  · cases hm2
  · obtain ⟨c, hc, cn, best, br, hmeq⟩ := compare_by_fuzzy_mem _ _ _ _ hm2
    rw [hmeq]
    have hval : rowGet (fuzzy_match_info c cn best br) "supplier_price" Val.vNaN
        = rowGet c "price_usd" (Val.vInt 0) := rfl
    rw [hval]
    unfold pipeline_fuzzy_candidates at hc
    rw [List.mem_map] at hc
    obtain ⟨p, hp, hpc⟩ := hc
    have hp1 : p ∈ pipeline_pool1 cfg supplier_df base_df ar.new_items := by
      unfold pipeline_pool2 remove_by_article at hp
      exact mem_ite_pool hp
    have hp0 : p ∈ pipeline_pool0 ar.new_items := by
      unfold pipeline_pool1 remove_by_article at hp1
      exact mem_ite_pool hp1
    unfold pipeline_pool0 at hp0
    have hsnd := mem_enumFrom_snd _ 0 p hp0
    rw [List.mem_map] at hsnd
    obtain ⟨r, hr, hru⟩ := hsnd
    have hnone : rowFind r "price_usd" = none :=
      compare_by_articles_new_no_price_usd cfg supplier_df base_df ar har r hr
    have hnone2 : rowFind p.2 "price_usd" = none := by
      rw [← hru]
      exact unmatched_row_no_price_usd r hnone
    rw [← hpc]
    rw [rowGet, hnone2]
    rfl

/-- Witness for C10: a concrete run in which the second supplier row is
matched only by stage-4 fuzzy name similarity, and its reported
`supplier_price` is the fallback `0` although the supplier's price is 7. -/
theorem pipeline_fuzzy_supplier_price_zero_witness :
    ∃ res, perform_comparison "vitya" c10_supplier c10_base = Except.ok res ∧
      res.fuzzy_matches.length = 1 ∧
      ∀ m ∈ res.fuzzy_matches, rowGet m "supplier_price" Val.vNaN = Val.vInt 0 := by
  cases hres : perform_comparison "vitya" c10_supplier c10_base with
  | error e =>
      exfalso
      have hsome : (perform_comparison "vitya" c10_supplier c10_base).toOption.isSome
          = true := by decide
      rw [hres] at hsome
      exact Bool.noConfusion hsome
  | ok res =>
      refine ⟨res, rfl, ?_,
        pipeline_fuzzy_supplier_price_zero "vitya" c10_supplier c10_base res hres⟩
      have hlen : (perform_comparison "vitya" c10_supplier c10_base).toOption.map
          (fun r => r.fuzzy_matches.length) = some 1 := by decide
      rw [hres] at hlen
      simpa [Except.toOption] using hlen

/-- C1: refutation of stage exclusivity.  In this concrete run the supplier
row with article `A1` is claimed by the bracket-code stage, yet the
generic-code stage — which consumes the stale stage-1 `new_items` list
instead of the narrowed pool — matches the very same row again, so it
appears in two buckets at once. -/
theorem pipeline_exclusivity_counterexample :
    (perform_comparison "vitya" c1_supplier c1_base).toOption.map (fun r =>
      (r.bracket_matches.map (fun m => rowGet m "supplier_article" Val.vNone),
       r.code_matches.map (fun m => rowGet m "supplier_article" Val.vNone))) =
      some ([Val.vStr "A1"], [Val.vStr "A1"]) := by decide

/-- C6: refutation of structured error reporting.  When the configuration
names a price column (`price_usd`) absent from the supplier frame, the
`dropna` call inside `compare_by_articles` raises `KeyError`, and
`perform_comparison` propagates the exception — the caller receives an
uncaught exception, not a structured error report (the callers' checks for
an `"error"` key are dead code). -/
theorem pipeline_missing_column_keyerror :
    (match perform_comparison "vitya" c6_supplier c1_base with
      | Except.error e => some e
      | Except.ok _ => none) = some "KeyError: price_usd" := by decide

end MiStockSync
